import Mathlib

/-!
# gojsonapi: the uint64 GET pipeline of `jsonapi.go`

A shallow embedding of `src/jsonapi.go`: the identifier codec (`splitUintIds`),
the batch getter (`makeUintResourceGetter`), the per-relation includer
(`makeIncluder`), the request handler (`makeUintGetHandler`) and the deferred
error collector (`respondWithErrors`).

Conventions of the embedding.

* A Go `uint64` is a `Nat`; the only arithmetic on identifiers happens inside
  `strconv.ParseUint`, where the wrap-around is written `% 2 ^ 64`.
* A function returning `(value, err error)` returns a pair whose second
  component is `none` for a nil error. Both components are kept, because a Go
  function hands back its value results also when the error is not nil.
* `panic` and the deferred `recover` are modelled by an explicit `Outcome`:
  the handler body returns the writer state together with the value it
  panicked with, and `respondWithErrors` receives what `recover()` returns.
* The response writer records every `WriteHeader` and every `WriteJson` call.
  The embedding stops at the Go value handed to `WriteJson`; encoding it is the
  transport's business.
* `jsonapi.go` is unfinished in places, and the embedding reads them as follows.
  `makeUintResourceGetter` is written as if it returned `(res, err)` but uses a
  free variable `resources`; it is used as the getter `makeIncluder` calls with
  the fetched resources, which is how it is embedded. The extractor closures
  of `getUintIncluders` hand the value of a reflection expression to an
  unchecked type assertion; what that expression evaluates to in a call is a
  parameter (`read`), what the assertion does with it is embedded. The closure
  of `makeIncluder` has no return statement, so the value it hands back is a
  parameter (`ret`). `resourceName` lacks the `return` keyword before its
  expression. `l != 0` in the handler is the nil test on the pointer the
  includer returns.
* `strings.ToLower` lower-cases by the Unicode tables; it is a parameter
  (`lower`) of everything that calls it.
* `src/jsonapi/jsonapi.go` holds the same functions commented out, next to a
  string-identifier handler none of the statements below is about.
-/

namespace JsonApi

/-! ## Standard library: `strings.Split`, `strconv.ParseUint` -/

/-- Go `strings.Split(s, ",")` on the characters of `s`: a comma closes the
current segment and opens a new one, so `n` commas give `n + 1` segments and the
empty string gives one empty segment. -/
def SplitChars : List Char → List (List Char)
  | [] => [[]]
  | c :: cs =>
    if c = ',' then [] :: SplitChars cs
    else
      match SplitChars cs with
      | [] => [[c]]
      | seg :: segs => (c :: seg) :: segs

/-- Go `strings.Split(idString, ",")`. -/
def Split (s : String) : List String := (SplitChars s.data).map String.mk

/-- The two sentinel errors of `strconv`: `ErrSyntax` and `ErrRange`. -/
inductive NumErr
  | ErrSyntax
  | ErrRange
  deriving DecidableEq, Repr

/-- Go `*strconv.NumError`: the failing function, the input string, the cause. -/
structure NumError where
  Func : String
  Num : String
  Err : NumErr
  deriving DecidableEq, Repr

/-- Go `lower(c)` of `strconv`: `c | ('x' - 'X')`, the byte with bit 5 set. A
character outside ASCII is a run of bytes from `0x80` up in the Go string; like
each of those bytes it stays above `z` here. -/
def lowerByte (c : Char) : Nat := c.toNat ||| 32

/-- The digit value the loop of `strconv.ParseUint` gives a byte: `c - '0'` for
`0`-`9`, `lower(c) - 'a' + 10` when `lower(c)` is a letter; `none` for every
other byte. -/
def digitVal (c : Char) : Option Nat :=
  if '0' ≤ c ∧ c ≤ '9' then some (c.toNat - '0'.toNat)
  else if 'a'.toNat ≤ lowerByte c ∧ lowerByte c ≤ 'z'.toNat then
    some (lowerByte c - 'a'.toNat + 10)
  else none

/-- The loop `for ; i < len(s); i++` of Go `strconv.underscoreOK`; `saw` is the
last character class seen: `^` at the start, `0` for a digit or a base mark, `_`
for an underscore, `!` for anything else. -/
def underscoreOKLoop (hex : Bool) : List Char → Char → Bool
  | [], saw => saw != '_'
  | c :: cs, saw =>
    if ('0' ≤ c ∧ c ≤ '9') ∨
        (hex = true ∧ 'a'.toNat ≤ lowerByte c ∧ lowerByte c ≤ 'f'.toNat) then
      underscoreOKLoop hex cs '0'
    else if c = '_' then
      if saw ≠ '0' then false else underscoreOKLoop hex cs '_'
    else if saw = '_' then false
    else underscoreOKLoop hex cs '!'

/-- Go `strconv.underscoreOK(s)`: an optional sign is skipped, a base mark
(`0b`, `0o`, `0x`, either case) counts as a digit, and every underscore must
stand between two digits. -/
def underscoreOK (s : List Char) : Bool :=
  let s :=
    match s with
    | '-' :: t => t
    | '+' :: t => t
    | _ => s
  match s with
  | '0' :: c :: rest =>
    if lowerByte c = 'b'.toNat ∨ lowerByte c = 'o'.toNat ∨ lowerByte c = 'x'.toNat then
      underscoreOKLoop (lowerByte c == 'x'.toNat) rest '0'
    else underscoreOKLoop false s '^'
  | _ => underscoreOKLoop false s '^'

/-- The digit loop of `strconv.ParseUint` for `base0 = true` and
`bitSize = 64`: an underscore is skipped and remembered; `cutoff` is
`maxUint64/base + 1` and `maxVal` is `1<<64 - 1`; on a syntax error the value is
`0`, on a range error it is `maxVal`. The third component says whether an
underscore was seen. -/
def parseDigits (base : Nat) : List Char → Nat → Bool → Nat × Option NumErr × Bool
  | [], n, underscores => (n, none, underscores)
  | c :: cs, n, underscores =>
    if c = '_' then parseDigits base cs n true
    else
      match digitVal c with
      | none => (0, some .ErrSyntax, underscores)
      | some d =>
        if d ≥ base then (0, some .ErrSyntax, underscores)
        else if n ≥ (2 ^ 64 - 1) / base + 1 then (2 ^ 64 - 1, some .ErrRange, underscores)
        else
          let n := (n * base) % 2 ^ 64
          let n1 := (n + d) % 2 ^ 64
          if n1 < n ∨ n1 > 2 ^ 64 - 1 then (2 ^ 64 - 1, some .ErrRange, underscores)
          else parseDigits base cs n1 underscores

/-- The `case base == 0` branch of `strconv.ParseUint`: the base and the
digits left to read. With a leading `0`, a string of three bytes or more whose
second byte is `b`, `o` or `x` (either case) selects base 2, 8 or 16 and loses
two bytes; any other string with a leading `0` selects base 8 and loses the
`0`; everything else is base 10. -/
def basePrefix (s : List Char) : Nat × List Char :=
  match s with
  | '0' :: c :: d :: rest =>
    if lowerByte c = 'b'.toNat then (2, d :: rest)
    else if lowerByte c = 'o'.toNat then (8, d :: rest)
    else if lowerByte c = 'x'.toNat then (16, d :: rest)
    else (8, c :: d :: rest)
  | '0' :: rest => (8, rest)
  | _ => (10, s)

/-- Go `strconv.ParseUint(s, 0, 64)` (Go 1.13 and later) on the characters of
`s`: the empty string is a syntax error; the base is read off the string; the
digit loop runs; and a string in which underscores were seen must pass
`underscoreOK`. Go works on the bytes of `s`; a character outside ASCII is a
run of bytes from `0x80` up, none of them a digit, a letter, `_` or a base
mark, so Go rejects its first byte where the character is rejected here. -/
def ParseUintChars (s0 : List Char) : Nat × Option NumErr :=
  if s0 = [] then (0, some .ErrSyntax)
  else
    let bs := basePrefix s0
    match parseDigits bs.1 bs.2 0 false with
    | (n, some e, _) => (n, some e)
    | (n, none, underscores) =>
      if underscores = true ∧ underscoreOK s0 = false then (0, some .ErrSyntax) else (n, none)

/-- Go `strconv.ParseUint(s, 0, 64)`: the value and the error, which is a
`*NumError` carrying the whole input string `s`. -/
def ParseUint (s : String) : Nat × Option NumError :=
  let r := ParseUintChars s.data
  (r.1, r.2.map fun e => { Func := "ParseUint", Num := s, Err := e })

/-! ## Identifier codec (`jsonapi.go` lines 126-137) -/

/-- The `for i, idStr := range idStrs` loop of `splitUintIds`: `ids[i]` receives
the value `ParseUint` returns, and a non-nil error returns at once with the
slice as filled so far. -/
def splitUintIdsLoop : List String → Nat → List Nat → List Nat × Option NumError
  | [], _, ids => (ids, none)
  | idStr :: rest, i, ids =>
    let r := ParseUint idStr
    let ids := ids.set i r.1
    match r.2 with
    | some err => (ids, some err)
    | none => splitUintIdsLoop rest (i + 1) ids

/-- Go `splitUintIds(idString) (ids []uint64, err error)`: `ids` is made with
`len(idStrs)` zero entries, then the loop runs; both named results are
returned. -/
def splitUintIds (idString : String) : List Nat × Option NumError :=
  let idStrs := Split idString
  splitUintIdsLoop idStrs 0 (List.replicate idStrs.length 0)

/-! ## Values: documents, errors, panic values -/

/-- A Go value as a type assertion sees it, by its dynamic type: a `uint64`, a
`[]uint64`, or a value of any other type (named by `typ`), such as the
`uint32` or `[]int` that `ConvertibleTo(reflect.Uint64)` admits as well. -/
inductive FieldValue
  | uint64 (id : Nat)
  | uint64Slice (ids : List Nat)
  | other (typ : String)
  deriving DecidableEq, Repr

/-- A record served by a resource (an element of the `[]interface{}` a `Get`
returns): its identifier and the values of the fields of its `links` struct by
index. -/
structure Document where
  id : Nat
  links : List FieldValue
  deriving DecidableEq, Repr

/-- A Go `error` value: the `*NumError` of `strconv`, an error that only
carries a message (`fmt.Errorf`, and whatever a collaborator returns), or a
`runtime.Error` such as the `*runtime.TypeAssertionError` of a failed type
assertion. -/
inductive GoError
  | num (e : NumError)
  | text (msg : String)
  | runtime (msg : String)
  deriving DecidableEq, Repr

/-- An element of a `[]interface{}` of errors, which is also what `errors.Errors`
holds: a single `error`, or a whole `[]error` such as `Create` and `Set`
return. -/
inductive Entry
  | error (e : GoError)
  | errorSlice (es : List GoError)
  deriving DecidableEq, Repr

/-- The dynamic value a `panic` carries and `recover()` hands back: a value that
is not a `[]interface{}` (an `error`, a `[]error`), or a `[]interface{}`. -/
inductive PanicValue
  | value (v : Entry)
  | ifaceSlice (vs : List Entry)
  deriving DecidableEq, Repr

/-- How a Go call ends: it returns a value, or it panics with one. -/
inductive Outcome (α : Type)
  | returned (a : α)
  | panicked (v : PanicValue)
  deriving DecidableEq, Repr

/-! ## Capabilities (`jsonapi.go` lines 12-61) -/

/-- Go interface `UintGetter`, together with the name of the type behind it
(`reflect.TypeOf(res).Name()`): `Get` returns the values and the error. -/
structure UintGetter where
  typeName : String
  Get : List Nat → List Document × Option GoError

/-- One `Get` call as a collaborator sees it: the type it was sent to and the
identifier slice it carried. -/
structure GetCall where
  target : String
  ids : List Nat
  deriving DecidableEq, Repr

/-! ## Batch getter (`jsonapi.go` lines 202-248) -/

/-- Go `map[uint64]bool` in which every stored value is `true`: its key set, as
the list of keys in the order they were first stored. -/
abbrev IdMap := List Nat

/-- Go `idMap[id] = true`. -/
def IdMap.store (idMap : IdMap) (id : Nat) : IdMap :=
  if id ∈ idMap then idMap else idMap ++ [id]

/-- The order in which `for id := range idMap` visits the keys. Go leaves it
unspecified; every enumeration of the key set is allowed. -/
structure KeyOrder where
  keys : IdMap → List Nat
  perm : ∀ idMap, (keys idMap).Perm idMap

/-- The kind of reference field `getUintIncluders` recognises in the links
struct: convertible to `uint64` (line 207), or a slice of such (line 214). -/
inductive RefKind
  | toOne
  | toMany
  deriving DecidableEq, Repr

/-- The type assertion that ends the reflection expression of an extractor
closure: `.(uint64)` in the closure of a to-one field (line 211), `.([]uint64)`
in the closure of a to-many field (line 218). The result is the identifiers the
closure goes on to store; `none` when the dynamic type is another one and the
assertion, which has no `ok` result, panics. -/
def assertIds (kind : RefKind) (v : FieldValue) : Option (List Nat) :=
  match kind, v with
  | .toOne, .uint64 id => some [id]
  | .toMany, .uint64Slice ids => some ids
  | _, _ => none

/-- The value a failed type assertion panics with. -/
def typeAssertionPanic : PanicValue :=
  .value (.error (.runtime "interface conversion"))

/-- The `idExtractors[name]` closures of `getUintIncluders` (lines 210-212 and
217-222), called with `res` and `idMap`. `read res` is what the reflection
expression of the closure evaluates to in that call; as written the expression
names the registered `resource` and not `res`, which is a `read` that ignores
its argument. The to-one closure stores the asserted `uint64`, the to-many
closure stores each element of the asserted `[]uint64`; a failed assertion
panics before anything is stored. -/
def idExtractor (kind : RefKind) (read : Document → FieldValue) (res : Document)
    (idMap : IdMap) : Outcome IdMap :=
  match kind, read res with
  | .toOne, .uint64 id => .returned (idMap.store id)
  | .toMany, .uint64Slice ids => .returned (ids.foldl IdMap.store idMap)
  | _, _ => .panicked typeAssertionPanic

/-- The loop `for i := range resources { idExtractor(resources[i], idMap) }` of
`makeUintResourceGetter`; a panic of the extractor ends it. -/
def extractAll (extractor : Document → IdMap → Outcome IdMap) :
    List Document → IdMap → Outcome IdMap
  | [], idMap => .returned idMap
  | r :: rest, idMap =>
    match extractor r idMap with
    | .returned idMap => extractAll extractor rest idMap
    | .panicked v => .panicked v

/-- What a getter built by `makeUintResourceGetter` did: the `Get` calls it
issued, and how it ended, by returning the `(res, err)` pair or by a panic. -/
structure GetterResult where
  calls : List GetCall
  result : Outcome (List Document × Option GoError)

/-- Go `makeUintResourceGetter(dest, idExtractor)` applied to `resources`: every
resource is run through the extractor into one fresh `idMap`, the keys are
copied to `ids` in iteration order, and `dest.Get(ids)` is the result. The
call to `dest.Get` is unconditional once the loop is through; `calls` records
it. -/
def makeUintResourceGetter (order : KeyOrder) (dest : UintGetter)
    (extractor : Document → IdMap → Outcome IdMap) (resources : List Document) :
    GetterResult :=
  match extractAll extractor resources [] with
  | .panicked v => { calls := [], result := .panicked v }
  | .returned idMap =>
    let ids := order.keys idMap
    { calls := [{ target := dest.typeName, ids := ids }], result := .returned (dest.Get ids) }

/-- The total number of references the extractor closure of kind `kind` finds
across a result set. -/
def totalReferences (kind : RefKind) (read : Document → FieldValue)
    (resources : List Document) : Nat :=
  (resources.map fun r => ((assertIds kind (read r)).getD []).length).sum

/-! ## Response writer, response bodies -/

/-- Go `include.RelDesc`: the optional link template and the target type. -/
structure RelDesc where
  Href : String
  Typ : String
  deriving DecidableEq, Repr

/-- Go struct `include` (lines 149-156). -/
structure Include where
  RelName : String
  RelDesc : RelDesc
  Resources : List Document
  deriving DecidableEq, Repr

/-- Modelled from the spec: the struct `linked` the handler reads `l.Linked` and
`l.Links` from. Its declaration is commented out and unfinished in
`jsonapi.go` (lines 144-147); by section 4.5 `linked` maps a relation name to
its included documents and `links` maps it to the relation descriptor. -/
structure linked where
  Linked : List (String × List Document)
  Links : List (String × RelDesc)
  deriving DecidableEq, Repr

/-- A value stored in the response map `resp`. -/
inductive RespValue
  | single (d : Document)
  | collection (ds : List Document)
  | linked (m : List (String × List Document))
  | links (m : List (String × RelDesc))
  deriving DecidableEq, Repr

/-- Go `map[string]interface{}` as the list of its entries, one per key. -/
abbrev RespMap := List (String × RespValue)

/-- Go `resp[key] = v`: the entry of an existing key is replaced. -/
def RespMap.assign : RespMap → String → RespValue → RespMap
  | [], key, v => [(key, v)]
  | (k, w) :: rest, key, v =>
    if k = key then (k, v) :: rest else (k, w) :: RespMap.assign rest key v

/-- Go `resp[key]`, `none` when the key is absent. -/
def RespMap.get (resp : RespMap) (key : String) : Option RespValue :=
  (resp.find? fun e => e.1 = key).map Prod.snd

/-- Go struct `errors` (lines 160-162). -/
structure errors where
  Errors : List Entry
  deriving DecidableEq, Repr

/-- A value handed to `rw.WriteJson`: the response map, or the `errors`
struct. -/
inductive Body
  | resp (m : RespMap)
  | envelope (e : errors)
  deriving DecidableEq, Repr

/-- The field of a written body under `key`: an entry of the response map; the
`errors` struct has no entry of a response map. -/
def Body.field (b : Body) (key : String) : Option RespValue :=
  match b with
  | .resp m => m.get key
  | .envelope _ => none

/-- The error list of a written body: the `Errors` field of the `errors`
struct; a response map has none. -/
def Body.errorList (b : Body) : Option (List Entry) :=
  match b with
  | .resp _ => none
  | .envelope e => some e.Errors

/-- The `rest.ResponseWriter` as the handler drives it: the status codes passed
to `WriteHeader` and the values passed to `WriteJson`, in call order. -/
structure ResponseWriter where
  headers : List Nat
  bodies : List Body
  deriving DecidableEq, Repr

/-- A writer nothing has been written to yet. -/
def ResponseWriter.fresh : ResponseWriter := { headers := [], bodies := [] }

/-- Go `rw.WriteHeader(code)`. -/
def ResponseWriter.WriteHeader (rw : ResponseWriter) (code : Nat) : ResponseWriter :=
  { rw with headers := rw.headers ++ [code] }

/-- Go `rw.WriteJson(v)`. -/
def ResponseWriter.WriteJson (rw : ResponseWriter) (v : Body) : ResponseWriter :=
  { rw with bodies := rw.bodies ++ [v] }

/-- Go `http.StatusBadRequest`. -/
def StatusBadRequest : Nat := 400

/-- Go `http.StatusInternalServerError`. -/
def StatusInternalServerError : Nat := 500

/-- The part of a `*rest.Request` the handler reads: `PathParam("ids")` and
`RequestURI`. -/
structure Request where
  ids : String
  RequestURI : String
  deriving DecidableEq, Repr

/-! ## Includer (`jsonapi.go` lines 158, 267-283) -/

/-- Go type `includer`: called with the fetched resources and the response
writer, it returns a `*linked` (`none` for nil) or panics, and it may have
written to the writer. -/
abbrev includer := List Document → ResponseWriter → ResponseWriter × Outcome (Option linked)

/-- Go `resourceName(res)` (lines 281-283), the same expression as in
`NewRessourceHandler` (line 80): `strings.ToLower` of the type name, followed
by `s`. `lower` is `strings.ToLower`. -/
def resourceName (lower : String → String) (typeName : String) : String :=
  lower typeName ++ "s"

/-- Go `makeIncluder(name, source, dest, getter)`: the closure copies
`includeStruct`, stores what `getter(res)` returns in `inc.Resources`, and on a
non-nil error writes status 500 and panics with the error; a panic inside the
getter passes through. The closure in the source ends there, without a return
statement; `ret` stands for the value it hands back to the handler after a
successful getter call. -/
def makeIncluder (lower : String → String) (name source dest : String)
    (getter : List Document → GetterResult) (ret : Include → Option linked) : includer :=
  fun res rw =>
    let includeStruct : Include :=
      { RelName := resourceName lower source ++ "." ++ name,
        RelDesc := { Href := "", Typ := resourceName lower dest },
        Resources := [] }
    match (getter res).result with
    | .panicked v => (rw, .panicked v)
    | .returned r =>
      let inc : Include := { includeStruct with Resources := r.1 }
      match r.2 with
      | some err => (rw.WriteHeader StatusInternalServerError, .panicked (.value (.error err)))
      | none => (rw, .returned (ret inc))

/-- Modelled from the spec: the value the includer closure hands back, which
`jsonapi.go` leaves out (no return statement in the closure of `makeIncluder`,
no code that fills a `linked`). By sections 4.4 and 4.5 a relation that
produced no included documents is omitted, and `linked` and `links` are omitted
entirely when no relation produced any; otherwise `linked` maps the relation
name to the included documents and `links` maps it to the descriptor. -/
def assembleLinked (name : String) (inc : Include) : Option linked :=
  if inc.Resources = [] then none
  else some { Linked := [(name, inc.Resources)], Links := [(name, inc.RelDesc)] }

/-! ## Error collector and handler (`jsonapi.go` lines 75-124, 164-178) -/

/-- Go `respondWithErrors(rw)`; `recovered` is what `recover()` returns, `none`
for nil. A `[]interface{}` becomes the error list itself, every other value
becomes the single entry of a one-element list. -/
def respondWithErrors (rw : ResponseWriter) (recovered : Option PanicValue) : ResponseWriter :=
  match recovered with
  | none => rw
  | some (.ifaceSlice errs) => rw.WriteJson (.envelope { Errors := errs })
  | some (.value err) => rw.WriteJson (.envelope { Errors := [err] })

/-- The value stored under `name` (lines 112-116): `resources[0]` when
`len(resources) == 1`, the slice `resources` otherwise. -/
def primaryValue (resources : List Document) : RespValue :=
  match resources with
  | [r] => .single r
  | _ => .collection resources

/-- The body of the closure `makeUintGetHandler` returns, up to the point where
it returns or panics. -/
def handlerBody (name : String) (getter : UintGetter) (inc : includer)
    (rw : ResponseWriter) (req : Request) : ResponseWriter × Outcome Unit :=
  let parsed := splitUintIds req.ids
  match parsed.2 with
  | some _ =>
    (rw.WriteHeader StatusBadRequest,
      .panicked (.value (.error (.text ("Invalid request: " ++ req.RequestURI)))))
  | none =>
    let resp : RespMap := []
    let fetched := getter.Get parsed.1
    match fetched.2 with
    | some err => (rw.WriteHeader StatusInternalServerError, .panicked (.value (.error err)))
    | none =>
      let resources := fetched.1
      let resp := resp.assign name (primaryValue resources)
      match inc resources rw with
      | (rw, .panicked v) => (rw, .panicked v)
      | (rw, .returned l) =>
        let resp :=
          match l with
          | some l => (resp.assign "linked" (.linked l.Linked)).assign "links" (.links l.Links)
          | none => resp
        (rw.WriteJson (.resp resp), .returned ())

/-- Go `makeUintGetHandler(name, getter, inc)`: the handler body runs under
`defer respondWithErrors(rw)`, so the collector runs last, with the panic value
if the body panicked and with nil if it returned. -/
def makeUintGetHandler (name : String) (getter : UintGetter) (inc : includer)
    (rw : ResponseWriter) (req : Request) : ResponseWriter :=
  match handlerBody name getter inc rw req with
  | (rw, .returned _) => respondWithErrors rw none
  | (rw, .panicked v) => respondWithErrors rw (some v)

/-- Go `NewRessourceHandler(resource)` with `setUintRoutes` for a resource that
implements `UintGetter`: an unnamed type panics (`none`); otherwise the route
`"/" + name + "#ids"` is registered with the handler made for
`name = strings.ToLower(name) + "s"`. `lower` is `strings.ToLower`. -/
def NewRessourceHandler (lower : String → String) (resource : UintGetter) (inc : includer) :
    Option (String × (ResponseWriter → Request → ResponseWriter)) :=
  if resource.typeName = "" then none
  else
    let name := lower resource.typeName ++ "s"
    some ("/" ++ name ++ "#ids", makeUintGetHandler name resource inc)

/-! ## Sample collaborators -/

/-- Go `strings.ToLower` on a string of ASCII characters: `A`-`Z` move to
`a`-`z`, every other character stays. It stands in for `strings.ToLower` at
the concrete type names below, all of them ASCII. -/
def ToLowerASCII (s : String) : String := String.mk (s.data.map Char.toLower)

/-- A target whose `Get` returns one record per requested identifier. -/
def echoGetter (typeName : String) : UintGetter :=
  { typeName := typeName, Get := fun ids => (ids.map fun i => { id := i, links := [] }, none) }

/-- A target whose `Get` always fails with the given message. -/
def failingGetter (typeName msg : String) : UintGetter :=
  { typeName := typeName, Get := fun _ => ([], some (.text msg)) }

/-- A resource whose `Get` returns the given records whatever is asked. -/
def fixedGetter (typeName : String) (records : List Document) : UintGetter :=
  { typeName := typeName, Get := fun _ => (records, none) }

/-- A reflection expression that finds the field at `index` of the links
struct of the document the closure is called for; a document without such a
field gives a value of no integer type. -/
def fieldOf (index : Nat) (res : Document) : FieldValue :=
  (res.links.get? index).getD (.other "invalid")

/-- A reflection expression that finds the same value in every call, as one
that names the registered resource does. -/
def fixedField (v : FieldValue) (_res : Document) : FieldValue := v

/-- The key order that visits the keys as they were first stored. -/
def insertionOrder : KeyOrder := { keys := fun m => m, perm := fun m => List.Perm.refl m }

/-- The key order that visits the keys last stored first. -/
def reverseOrder : KeyOrder := { keys := fun m => m.reverse, perm := fun m => List.reverse_perm m }

/-- An includer for a resource without relations: it returns nil. -/
def noIncluder : includer := fun _ rw => (rw, .returned none)

/-! ## Shapes of a written body -/

/-- The success document of a resource named `name` that fetched `payload`: a
response map whose primary field holds the fetched payload, and which carries
no error list. -/
def Body.isSuccessDocument (name : String) (payload : RespValue) (b : Body) : Bool :=
  (b.field name == some payload) && b.errorList.isNone

/-- The error envelope: a body that carries an error list and has no primary
field, no `linked` and no `links`. -/
def Body.isErrorEnvelope (name : String) (b : Body) : Bool :=
  b.errorList.isSome && (b.field name).isNone && (b.field "linked").isNone
    && (b.field "links").isNone

/-! ## One request -/

/-- One request served on a fresh writer by the handler of a resource named
`name` whose includer is the one `getUintIncluders` builds for a relation
(line 230): `makeIncluder` around `makeUintResourceGetter(dest, extractor)`. -/
def serve (lower : String → String) (name rel source : String) (getter dest : UintGetter)
    (order : KeyOrder) (extractor : Document → IdMap → Outcome IdMap)
    (ret : Include → Option linked) (req : Request) : ResponseWriter :=
  makeUintGetHandler name getter
    (makeIncluder lower rel source dest.typeName (makeUintResourceGetter order dest extractor)
      ret)
    ResponseWriter.fresh req

/-! ## Lemmas on the identifier codec -/

theorem SplitChars_ne_nil (cs : List Char) : SplitChars cs ≠ [] := by
  induction cs with
  | nil => simp [SplitChars]
  | cons c cs ih =>
    unfold SplitChars
    split
    · simp
    · split <;> simp

theorem SplitChars_length (cs : List Char) : (SplitChars cs).length = cs.count ',' + 1 := by
  induction cs with
  | nil => simp [SplitChars]
  | cons c cs ih =>
    unfold SplitChars
    by_cases hc : c = ','
    · subst hc
      simp [ih]
    · have hne : (c == ',') = false := by simpa using hc
      rw [if_neg hc, List.count_cons, hne]
      split
      · rename_i h
        exact absurd h (SplitChars_ne_nil cs)
      · rename_i seg segs h
        rw [h] at ih
        simpa using ih

theorem Split_length (s : String) : (Split s).length = s.data.count ',' + 1 := by
  simp [Split, SplitChars_length]

theorem set_length_append (done todo : List Nat) (t v : Nat) :
    (done ++ t :: todo).set done.length v = done ++ v :: todo := by
  induction done with
  | nil => simp
  | cons d done ih => simp [ih]

theorem ParseUint_err_Num (s : String) (e : NumError) (h : (ParseUint s).2 = some e) :
    e.Num = s := by
  simp only [ParseUint, Option.map_eq_some'] at h
  obtain ⟨a, _, rfl⟩ := h
  rfl

theorem splitUintIdsLoop_valid (segs : List String) :
    ∀ (done todo : List Nat), todo.length = segs.length →
      (∀ seg ∈ segs, (ParseUint seg).2 = none) →
      splitUintIdsLoop segs done.length (done ++ todo)
        = (done ++ segs.map (fun seg => (ParseUint seg).1), none) := by
  induction segs with
  | nil =>
    intro done todo hlen _
    have : todo = [] := List.length_eq_zero.mp (by simpa using hlen)
    simp [splitUintIdsLoop, this]
  | cons seg segs ih =>
    intro done todo hlen hvalid
    cases todo with
    | nil => simp at hlen
    | cons t todo =>
      have hseg : (ParseUint seg).2 = none := hvalid seg (by simp)
      have hstep := ih (done ++ [(ParseUint seg).1]) todo (by simpa using hlen)
        (fun s hs => hvalid s (by simp [hs]))
      simp only [splitUintIdsLoop, set_length_append, hseg]
      simpa using hstep

theorem splitUintIdsLoop_invalid (pre : List String) (bad : String) (post : List String)
    (e : NumError) (hbad : (ParseUint bad).2 = some e) :
    ∀ (done todo : List Nat), todo.length = pre.length + 1 + post.length →
      (∀ seg ∈ pre, (ParseUint seg).2 = none) →
      splitUintIdsLoop (pre ++ bad :: post) done.length (done ++ todo)
        = (done ++ pre.map (fun seg => (ParseUint seg).1)
            ++ (ParseUint bad).1 :: todo.drop (pre.length + 1), some e) := by
  induction pre with
  | nil =>
    intro done todo hlen _
    cases todo with
    | nil => simp at hlen; omega
    | cons t todo =>
      simp [splitUintIdsLoop, set_length_append, hbad]
  | cons seg pre ih =>
    intro done todo hlen hvalid
    cases todo with
    | nil => simp at hlen; omega
    | cons t todo =>
      have hseg : (ParseUint seg).2 = none := hvalid seg (by simp)
      have hstep := ih (done ++ [(ParseUint seg).1]) todo
        (by simp at hlen ⊢; omega) (fun s hs => hvalid s (by simp [hs]))
      simp only [List.cons_append, splitUintIdsLoop, set_length_append, hseg]
      simpa using hstep

theorem exists_first_invalid (segs : List String)
    (h : ∃ seg ∈ segs, (ParseUint seg).2 ≠ none) :
    ∃ pre bad post, segs = pre ++ bad :: post ∧
      (∀ seg ∈ pre, (ParseUint seg).2 = none) ∧ (ParseUint bad).2 ≠ none := by
  induction segs with
  | nil => simp at h
  | cons seg segs ih =>
    by_cases hseg : (ParseUint seg).2 = none
    · obtain ⟨s, hs, hsbad⟩ := h
      have hs2 : s ∈ segs := by
        rcases List.mem_cons.mp hs with rfl | hs
        · exact absurd hseg hsbad
        · exact hs
      obtain ⟨pre, bad, post, rfl, hpre, hb⟩ := ih ⟨s, hs2, hsbad⟩
      refine ⟨seg :: pre, bad, post, by simp, ?_, hb⟩
      intro p hp
      rcases List.mem_cons.mp hp with rfl | hp
      · exact hseg
      · exact hpre p hp
    · exact ⟨[], seg, segs, by simp, by simp, hseg⟩

theorem splitUintIds_of_first_invalid (idString : String) (pre : List String) (bad : String)
    (post : List String) (e : NumError) (hsplit : Split idString = pre ++ bad :: post)
    (hpre : ∀ seg ∈ pre, (ParseUint seg).2 = none) (hbad : (ParseUint bad).2 = some e) :
    splitUintIds idString
      = (pre.map (fun seg => (ParseUint seg).1)
          ++ (ParseUint bad).1 :: List.replicate post.length 0, some e) := by
  have h := splitUintIdsLoop_invalid pre bad post e hbad []
    (List.replicate (pre ++ bad :: post).length 0) (by simp; omega) hpre
  simp only [splitUintIds, hsplit]
  simp only [List.length_nil, List.nil_append] at h
  rw [h]
  simp only [List.drop_replicate, List.length_append, List.length_cons]
  have : pre.length + (post.length + 1) - (pre.length + 1) = post.length := by omega
  rw [this]


/-! ## Identifier codec: the claims -/

/-- C4. For every string whose comma-separated segments all parse as unsigned
64-bit integers, `splitUintIds` succeeds (nil error) and returns the values of
the segments in input order: one element per segment (number of commas plus
one), the `i`-th element being the value of the `i`-th segment, so repeated
identifiers stay repeated. -/
theorem splitUintIds_valid (idString : String)
    (h : ∀ seg ∈ Split idString, (ParseUint seg).2 = none) :
    splitUintIds idString = ((Split idString).map (fun seg => (ParseUint seg).1), none) ∧
      (splitUintIds idString).1.length = idString.data.count ',' + 1 ∧
      ∀ (i : Nat) (hi : i < (Split idString).length),
        (splitUintIds idString).1[i]? = some (ParseUint ((Split idString).get ⟨i, hi⟩)).1 := by
  have hloop := splitUintIdsLoop_valid (Split idString) []
    (List.replicate (Split idString).length 0) (by simp) h
  have heq : splitUintIds idString
      = ((Split idString).map (fun seg => (ParseUint seg).1), none) := by
    simpa [splitUintIds] using hloop
  refine ⟨heq, ?_, ?_⟩
  · rw [heq]
    simp [Split_length]
  · intro i hi
    rw [heq]
    simp [List.getElem?_map, List.getElem?_eq_getElem hi]

/-- C4, at a concrete input: three valid segments, one of them repeated and one
written in base 16. -/
theorem splitUintIds_valid_witness :
    (∀ seg ∈ Split "7,0x10,7", (ParseUint seg).2 = none) ∧
      (splitUintIds "7,0x10,7"
          = ((Split "7,0x10,7").map (fun seg => (ParseUint seg).1), none) ∧
        (splitUintIds "7,0x10,7").1.length = "7,0x10,7".data.count ',' + 1 ∧
        ∀ (i : Nat) (hi : i < (Split "7,0x10,7").length),
          (splitUintIds "7,0x10,7").1[i]?
            = some (ParseUint ((Split "7,0x10,7").get ⟨i, hi⟩)).1) :=
  ⟨by decide, splitUintIds_valid "7,0x10,7" (by decide)⟩

/-- The identifiers of `7,0x10,7`, by evaluation: order and the repetition are
kept. -/
theorem splitUintIds_valid_sample : splitUintIds "7,0x10,7" = ([7, 16, 7], none) := by
  decide

/-- C5. For every string with a segment that does not parse as an unsigned
64-bit integer, `splitUintIds` returns a non-nil error; that error is the one
`ParseUint` raised on the first such segment in input order, and it carries
that segment (`Num`). -/
theorem splitUintIds_invalid (idString : String)
    (h : ∃ seg ∈ Split idString, (ParseUint seg).2 ≠ none) :
    ∃ pre bad post e, Split idString = pre ++ bad :: post ∧
      (∀ seg ∈ pre, (ParseUint seg).2 = none) ∧
      (ParseUint bad).2 = some e ∧
      (splitUintIds idString).2 = some e ∧ e.Num = bad := by
  obtain ⟨pre, bad, post, hsplit, hpre, hbad⟩ := exists_first_invalid (Split idString) h
  obtain ⟨e, he⟩ := Option.ne_none_iff_exists'.mp hbad
  refine ⟨pre, bad, post, e, hsplit, hpre, he, ?_, ParseUint_err_Num bad e he⟩
  rw [splitUintIds_of_first_invalid idString pre bad post e hsplit hpre he]

/-- C5, at a concrete input with an empty, a non-numeric and an out-of-range
segment after a valid one: the error names the empty segment, the first
offender. -/
theorem splitUintIds_invalid_witness :
    (∃ seg ∈ Split "5,,x,18446744073709551616", (ParseUint seg).2 ≠ none) ∧
      (splitUintIds "5,,x,18446744073709551616").2
        = some { Func := "ParseUint", Num := "", Err := .ErrSyntax } ∧
      ∃ pre bad post e, Split "5,,x,18446744073709551616" = pre ++ bad :: post ∧
        (∀ seg ∈ pre, (ParseUint seg).2 = none) ∧
        (ParseUint bad).2 = some e ∧
        (splitUintIds "5,,x,18446744073709551616").2 = some e ∧ e.Num = bad :=
  ⟨by decide, by decide, splitUintIds_invalid "5,,x,18446744073709551616" (by decide)⟩

/-- The three kinds of offending segment: the empty segment and a non-numeric
segment are syntax errors, a number above `2^64 - 1` is a range error. -/
theorem ParseUint_offending_kinds :
    ParseUint "" = (0, some { Func := "ParseUint", Num := "", Err := .ErrSyntax }) ∧
      ParseUint "abc" = (0, some { Func := "ParseUint", Num := "abc", Err := .ErrSyntax }) ∧
      ParseUint "18446744073709551616"
        = (2 ^ 64 - 1, some { Func := "ParseUint", Num := "18446744073709551616", Err := .ErrRange }) := by
  decide

/-- The forms `ParseUint` reads with base 0: binary, octal (both spellings),
hexadecimal, and underscores between digits; a misplaced underscore is a syntax
error. -/
theorem ParseUint_base_forms :
    ParseUint "0b11" = (3, none) ∧ ParseUint "0o17" = (15, none) ∧
      ParseUint "017" = (15, none) ∧ ParseUint "0X1f" = (31, none) ∧
      ParseUint "1_000" = (1000, none) ∧ ParseUint "0x_1F" = (31, none) ∧
      ParseUint "1__0" = (0, some { Func := "ParseUint", Num := "1__0", Err := .ErrSyntax }) ∧
      ParseUint "_1" = (0, some { Func := "ParseUint", Num := "_1", Err := .ErrSyntax }) ∧
      ParseUint "09" = (0, some { Func := "ParseUint", Num := "09", Err := .ErrSyntax }) := by
  decide

/-- The codec on identifiers written with a base mark: `0b11` is the identifier
3, and in `0b11,abc` the error names `abc`. -/
theorem splitUintIds_base_forms :
    splitUintIds "0b11" = ([3], none) ∧ splitUintIds "0o17,1_000" = ([15, 1000], none) ∧
      splitUintIds "0b11,abc"
        = ([3, 0], some { Func := "ParseUint", Num := "abc", Err := .ErrSyntax }) := by
  decide

/-! ## Lemmas on the handler -/

theorem makeUintGetHandler_parse_error (name : String) (getter : UintGetter) (inc : includer)
    (rw : ResponseWriter) (req : Request) (h : (splitUintIds req.ids).2 ≠ none) :
    makeUintGetHandler name getter inc rw req
      = (rw.WriteHeader StatusBadRequest).WriteJson
          (.envelope { Errors := [.error (.text ("Invalid request: " ++ req.RequestURI))] }) := by
  obtain ⟨e, he⟩ := Option.ne_none_iff_exists'.mp h
  simp [makeUintGetHandler, handlerBody, he, respondWithErrors]

theorem makeUintGetHandler_get_error (name : String) (getter : UintGetter) (inc : includer)
    (rw : ResponseWriter) (req : Request) (err : GoError)
    (hparse : (splitUintIds req.ids).2 = none)
    (hget : (getter.Get (splitUintIds req.ids).1).2 = some err) :
    makeUintGetHandler name getter inc rw req
      = (rw.WriteHeader StatusInternalServerError).WriteJson
          (.envelope { Errors := [.error err] }) := by
  simp [makeUintGetHandler, handlerBody, hparse, hget, respondWithErrors]

theorem makeUintGetHandler_include_panic (lower : String → String) (name rel source dest : String)
    (getter : UintGetter) (relGetter : List Document → GetterResult)
    (ret : Include → Option linked) (rw : ResponseWriter) (req : Request) (v : PanicValue)
    (hparse : (splitUintIds req.ids).2 = none)
    (hget : (getter.Get (splitUintIds req.ids).1).2 = none)
    (hrel : (relGetter (getter.Get (splitUintIds req.ids).1).1).result = .panicked v) :
    makeUintGetHandler name getter (makeIncluder lower rel source dest relGetter ret) rw req
      = respondWithErrors rw (some v) := by
  simp [makeUintGetHandler, handlerBody, hparse, hget, makeIncluder, hrel]

theorem makeUintGetHandler_include_error (lower : String → String) (name rel source dest : String)
    (getter : UintGetter) (relGetter : List Document → GetterResult)
    (ret : Include → Option linked) (rw : ResponseWriter) (req : Request)
    (docs : List Document) (err : GoError)
    (hparse : (splitUintIds req.ids).2 = none)
    (hget : (getter.Get (splitUintIds req.ids).1).2 = none)
    (hrel : (relGetter (getter.Get (splitUintIds req.ids).1).1).result
      = .returned (docs, some err)) :
    makeUintGetHandler name getter (makeIncluder lower rel source dest relGetter ret) rw req
      = (rw.WriteHeader StatusInternalServerError).WriteJson
          (.envelope { Errors := [.error err] }) := by
  simp [makeUintGetHandler, handlerBody, hparse, hget, makeIncluder, hrel, respondWithErrors]

theorem makeUintGetHandler_success (lower : String → String) (name rel source dest : String)
    (getter : UintGetter) (relGetter : List Document → GetterResult)
    (ret : Include → Option linked) (rw : ResponseWriter) (req : Request)
    (docs : List Document)
    (hparse : (splitUintIds req.ids).2 = none)
    (hget : (getter.Get (splitUintIds req.ids).1).2 = none)
    (hrel : (relGetter (getter.Get (splitUintIds req.ids).1).1).result
      = .returned (docs, none)) :
    makeUintGetHandler name getter (makeIncluder lower rel source dest relGetter ret) rw req
      = rw.WriteJson (.resp
          (match ret { RelName := resourceName lower source ++ "." ++ rel,
                       RelDesc := { Href := "", Typ := resourceName lower dest },
                       Resources := docs } with
           | some l =>
             ((RespMap.assign [] name (primaryValue (getter.Get (splitUintIds req.ids).1).1)).assign
               "linked" (.linked l.Linked)).assign "links" (.links l.Links)
           | none => RespMap.assign [] name (primaryValue (getter.Get (splitUintIds req.ids).1).1))) := by
  simp only [makeUintGetHandler, handlerBody, hparse, hget, makeIncluder, hrel, respondWithErrors]

theorem assign_chain_get (name : String) (v : RespValue) (a b : RespValue)
    (h1 : name ≠ "linked") (h2 : name ≠ "links") :
    RespMap.get (((RespMap.assign [] name v).assign "linked" a).assign "links" b) name = some v := by
  simp [RespMap.assign, RespMap.get, h1, h2, List.find?]

theorem assign_single_get (name : String) (v : RespValue) :
    RespMap.get (RespMap.assign [] name v) name = some v := by
  simp [RespMap.assign, RespMap.get, List.find?]

theorem assign_chain_get_other (name key : String) (v : RespValue) (a b : RespValue)
    (h0 : key ≠ name) (h1 : key ≠ "linked") (h2 : key ≠ "links") :
    RespMap.get (((RespMap.assign [] name v).assign "linked" a).assign "links" b) key = none := by
  by_cases hn1 : name = "linked"
  · subst hn1
    simp [RespMap.assign, RespMap.get, List.find?, h1, h2, Ne.symm h1, Ne.symm h2]
  · by_cases hn2 : name = "links"
    · subst hn2
      simp [RespMap.assign, RespMap.get, List.find?, h1, h2, Ne.symm h1, Ne.symm h2]
    · simp [RespMap.assign, RespMap.get, List.find?, h1, h2, hn1, hn2, Ne.symm h0, Ne.symm h1,
        Ne.symm h2]

theorem assign_single_get_other (name key : String) (v : RespValue) (h0 : key ≠ name) :
    RespMap.get (RespMap.assign [] name v) key = none := by
  simp [RespMap.assign, RespMap.get, List.find?, Ne.symm h0]

theorem append_s_ne_links (a : String) (h : a ≠ "link") : a ++ "s" ≠ "links" := by
  intro heq
  apply h
  have hd : a.data ++ ['s'] = ['l', 'i', 'n', 'k'] ++ ['s'] := by
    have := congrArg String.data heq
    simpa using this
  exact String.ext (List.append_cancel_right hd)

theorem append_s_ne_linked (a : String) : a ++ "s" ≠ "linked" := by
  intro heq
  have hd : a.data ++ ['s'] = ['l', 'i', 'n', 'k', 'e'] ++ ['d'] := by
    have := congrArg String.data heq
    simpa using this
  have hlen : a.data.length = 5 := by
    have := congrArg List.length hd
    simpa using this
  have := (List.append_inj hd (by simpa using hlen)).2
  simp at this

/-- The five ways a request ends: the identifier list does not parse; the
primary `Get` fails; the relation getter panics; the `Get` of the relation's
target fails; every stage succeeds. -/
theorem serve_cases (lower : String → String) (name rel source : String)
    (getter dest : UintGetter) (order : KeyOrder)
    (extractor : Document → IdMap → Outcome IdMap) (ret : Include → Option linked)
    (req : Request) :
    ((splitUintIds req.ids).2 ≠ none ∧
        serve lower name rel source getter dest order extractor ret req
          = { headers := [StatusBadRequest],
              bodies := [.envelope
                { Errors := [.error (.text ("Invalid request: " ++ req.RequestURI))] }] }) ∨
      ((splitUintIds req.ids).2 = none ∧
        ∃ err, (getter.Get (splitUintIds req.ids).1).2 = some err ∧
          serve lower name rel source getter dest order extractor ret req
            = { headers := [StatusInternalServerError],
                bodies := [.envelope { Errors := [.error err] }] }) ∨
      ((splitUintIds req.ids).2 = none ∧ (getter.Get (splitUintIds req.ids).1).2 = none ∧
        ∃ v, (makeUintResourceGetter order dest extractor
            (getter.Get (splitUintIds req.ids).1).1).result = .panicked v ∧
          serve lower name rel source getter dest order extractor ret req
            = respondWithErrors ResponseWriter.fresh (some v)) ∨
      ((splitUintIds req.ids).2 = none ∧ (getter.Get (splitUintIds req.ids).1).2 = none ∧
        ∃ docs err, (makeUintResourceGetter order dest extractor
            (getter.Get (splitUintIds req.ids).1).1).result = .returned (docs, some err) ∧
          serve lower name rel source getter dest order extractor ret req
            = { headers := [StatusInternalServerError],
                bodies := [.envelope { Errors := [.error err] }] }) ∨
      ((splitUintIds req.ids).2 = none ∧ (getter.Get (splitUintIds req.ids).1).2 = none ∧
        ∃ docs, (makeUintResourceGetter order dest extractor
            (getter.Get (splitUintIds req.ids).1).1).result = .returned (docs, none) ∧
          serve lower name rel source getter dest order extractor ret req
            = { headers := [],
                bodies := [.resp
                  (match ret { RelName := resourceName lower source ++ "." ++ rel,
                               RelDesc := { Href := "", Typ := resourceName lower dest.typeName },
                               Resources := docs } with
                   | some l =>
                     ((RespMap.assign [] name
                        (primaryValue (getter.Get (splitUintIds req.ids).1).1)).assign
                       "linked" (.linked l.Linked)).assign "links" (.links l.Links)
                   | none => RespMap.assign [] name
                       (primaryValue (getter.Get (splitUintIds req.ids).1).1))] }) := by
  unfold serve
  by_cases hparse : (splitUintIds req.ids).2 = none
  · right
    cases hget : (getter.Get (splitUintIds req.ids).1).2 with
    | some err =>
      left
      refine ⟨hparse, err, rfl, ?_⟩
      rw [makeUintGetHandler_get_error name getter _ _ req err hparse hget]
      rfl
    | none =>
      right
      cases hrel : (makeUintResourceGetter order dest extractor
          (getter.Get (splitUintIds req.ids).1).1).result with
      | panicked v =>
        left
        refine ⟨hparse, rfl, v, rfl, ?_⟩
        rw [makeUintGetHandler_include_panic lower name rel source dest.typeName getter _ ret _
          req v hparse hget hrel]
      | returned r =>
        right
        obtain ⟨docs, e⟩ := r
        cases e with
        | some err =>
          left
          refine ⟨hparse, rfl, docs, err, rfl, ?_⟩
          rw [makeUintGetHandler_include_error lower name rel source dest.typeName getter _ ret _
            req docs err hparse hget hrel]
          rfl
        | none =>
          right
          refine ⟨hparse, rfl, docs, rfl, ?_⟩
          rw [makeUintGetHandler_success lower name rel source dest.typeName getter _ ret _
            req docs hparse hget hrel]
          rfl
  · left
    refine ⟨hparse, ?_⟩
    rw [makeUintGetHandler_parse_error name getter _ _ req hparse]
    rfl

/-! ## Handler: the claims -/

/-- C8. For every request, the handler writes status 400 exactly when the
identifier list fails to parse; it writes status 500 when the list parses and
the primary `Get` fails, or the primary `Get` succeeds and the `Get` of the
relation's target fails; and when every stage succeeds it writes no status at
all and one response map, the success response. -/
theorem handler_status_codes (lower : String → String) (name rel source : String)
    (getter dest : UintGetter) (order : KeyOrder)
    (extractor : Document → IdMap → Outcome IdMap) (ret : Include → Option linked)
    (req : Request) :
    ((serve lower name rel source getter dest order extractor ret req).headers
          = [StatusBadRequest]
        ↔ (splitUintIds req.ids).2 ≠ none) ∧
      ((splitUintIds req.ids).2 = none →
        ((getter.Get (splitUintIds req.ids).1).2 ≠ none ∨
          ((getter.Get (splitUintIds req.ids).1).2 = none ∧
            ∃ docs err, (makeUintResourceGetter order dest extractor
              (getter.Get (splitUintIds req.ids).1).1).result = .returned (docs, some err))) →
        (serve lower name rel source getter dest order extractor ret req).headers
          = [StatusInternalServerError]) ∧
      ((splitUintIds req.ids).2 = none →
        (getter.Get (splitUintIds req.ids).1).2 = none →
        (∃ docs, (makeUintResourceGetter order dest extractor
          (getter.Get (splitUintIds req.ids).1).1).result = .returned (docs, none)) →
        (serve lower name rel source getter dest order extractor ret req).headers = [] ∧
          ∃ m, (serve lower name rel source getter dest order extractor ret req).bodies
            = [.resp m]) := by
  rcases serve_cases lower name rel source getter dest order extractor ret req with
    ⟨hparse, hs⟩ | ⟨hparse, err, hget, hs⟩ | ⟨hparse, hget, v, hrel, hs⟩ |
    ⟨hparse, hget, docs, err, hrel, hs⟩ | ⟨hparse, hget, docs, hrel, hs⟩
  · refine ⟨⟨fun _ => hparse, fun _ => by rw [hs]⟩, fun h => absurd h hparse,
      fun h => absurd h hparse⟩
  · refine ⟨⟨fun h => ?_, fun h => absurd hparse h⟩, fun _ _ => by rw [hs], fun _ h => ?_⟩
    · rw [hs] at h
      simp [StatusBadRequest, StatusInternalServerError] at h
    · rw [hget] at h
      simp at h
  · refine ⟨⟨fun h => ?_, fun h => absurd hparse h⟩, fun _ h => ?_, fun _ _ h => ?_⟩
    · rw [hs] at h
      cases v <;> simp [respondWithErrors, ResponseWriter.WriteJson, ResponseWriter.fresh,
        StatusBadRequest] at h
    · rcases h with h | ⟨_, docs, err, h⟩
      · exact absurd hget h
      · rw [hrel] at h
        simp at h
    · obtain ⟨docs, h⟩ := h
      rw [hrel] at h
      simp at h
  · refine ⟨⟨fun h => ?_, fun h => absurd hparse h⟩, fun _ _ => by rw [hs], fun _ _ h => ?_⟩
    · rw [hs] at h
      simp [StatusBadRequest, StatusInternalServerError] at h
    · obtain ⟨docs2, h⟩ := h
      rw [hrel] at h
      simp at h
  · refine ⟨⟨fun h => ?_, fun h => absurd hparse h⟩, fun _ h => ?_, fun _ _ _ => ?_⟩
    · rw [hs] at h
      simp [StatusBadRequest] at h
    · rcases h with h | ⟨_, docs2, err, h⟩
      · exact absurd hget h
      · rw [hrel] at h
        simp at h
    · rw [hs]
      exact ⟨rfl, _, rfl⟩

/-- C8, at concrete requests: a malformed list gives 400, a failing relation
target gives 500, and a request whose stages all succeed writes no status,
also when its identifiers are written in base 2 and with an underscore. -/
theorem handler_status_codes_witness :
    (serve ToLowerASCII "widgets" "owner" "Widget"
        (fixedGetter "Widget" [{ id := 1, links := [.uint64 10] }])
        (echoGetter "User") insertionOrder (idExtractor .toOne (fixedField (.uint64 10)))
        (assembleLinked "owner") { ids := "abc", RequestURI := "/widgets/abc" }).headers
        = [400] ∧
      (serve ToLowerASCII "widgets" "owner" "Widget"
        (fixedGetter "Widget" [{ id := 1, links := [.uint64 10] }])
        (failingGetter "User" "users are down") insertionOrder (idExtractor .toOne (fixedField (.uint64 10)))
        (assembleLinked "owner") { ids := "1", RequestURI := "/widgets/1" }).headers = [500] ∧
      (serve ToLowerASCII "widgets" "owner" "Widget"
        (fixedGetter "Widget" [{ id := 1, links := [.uint64 10] }])
        (echoGetter "User") insertionOrder (idExtractor .toOne (fixedField (.uint64 10)))
        (assembleLinked "owner") { ids := "0b11,1_0", RequestURI := "/widgets/0b11,1_0" }).headers
        = [] :=
  ⟨(handler_status_codes ToLowerASCII "widgets" "owner" "Widget"
      (fixedGetter "Widget" [{ id := 1, links := [.uint64 10] }]) (echoGetter "User")
      insertionOrder (idExtractor .toOne (fixedField (.uint64 10))) (assembleLinked "owner")
      { ids := "abc", RequestURI := "/widgets/abc" }).1.mpr (by decide),
    (handler_status_codes ToLowerASCII "widgets" "owner" "Widget"
      (fixedGetter "Widget" [{ id := 1, links := [.uint64 10] }])
      (failingGetter "User" "users are down") insertionOrder (idExtractor .toOne (fixedField (.uint64 10)))
      (assembleLinked "owner") { ids := "1", RequestURI := "/widgets/1" }).2.1 (by decide)
      (Or.inr ⟨by decide, [], .text "users are down", by decide⟩),
    ((handler_status_codes ToLowerASCII "widgets" "owner" "Widget"
      (fixedGetter "Widget" [{ id := 1, links := [.uint64 10] }]) (echoGetter "User")
      insertionOrder (idExtractor .toOne (fixedField (.uint64 10))) (assembleLinked "owner")
      { ids := "0b11,1_0", RequestURI := "/widgets/0b11,1_0" }).2.2 (by decide) (by decide)
      ⟨[{ id := 10, links := [] }], by decide⟩).1⟩

/-- C3 as stated fails for a resource type named `Link`: its pluralized name is
`links`, the `links` entry stored after the primary field replaces it, and the
one body written for a successful request holds no fetched Document; it is
neither the success document nor an error envelope. -/
theorem handler_all_or_nothing_counterexample :
    resourceName ToLowerASCII "Link" = "links" ∧
      (fixedGetter "Link" [{ id := 1, links := [.uint64 10] }]).Get (splitUintIds "1").1
        = ([{ id := 1, links := [.uint64 10] }], none) ∧
      (serve ToLowerASCII "links" "owner" "Link"
        (fixedGetter "Link" [{ id := 1, links := [.uint64 10] }])
        (echoGetter "User") insertionOrder (idExtractor .toOne (fixedField (.uint64 10)))
        (assembleLinked "owner") { ids := "1", RequestURI := "/links/1" }).bodies
        = [.resp [("links", .links [("owner", { Href := "", Typ := "users" })]),
            ("linked", .linked [("owner", [{ id := 10, links := [] }])])]] ∧
      ¬ ∃ b, (serve ToLowerASCII "links" "owner" "Link"
          (fixedGetter "Link" [{ id := 1, links := [.uint64 10] }])
          (echoGetter "User") insertionOrder (idExtractor .toOne (fixedField (.uint64 10)))
          (assembleLinked "owner") { ids := "1", RequestURI := "/links/1" }).bodies = [b] ∧
        (b.isSuccessDocument "links" (primaryValue [{ id := 1, links := [.uint64 10] }]) = true ∨
          b.isErrorEnvelope "links" = true) := by
  refine ⟨by decide, by decide, by decide, ?_⟩
  rintro ⟨b, hb, hshape⟩
  have hbodies : (serve ToLowerASCII "links" "owner" "Link"
      (fixedGetter "Link" [{ id := 1, links := [.uint64 10] }])
      (echoGetter "User") insertionOrder (idExtractor .toOne (fixedField (.uint64 10)))
      (assembleLinked "owner") { ids := "1", RequestURI := "/links/1" }).bodies
      = [.resp [("links", .links [("owner", { Href := "", Typ := "users" })]),
          ("linked", .linked [("owner", [{ id := 10, links := [] }])])]] := by decide
  rw [hbodies] at hb
  obtain rfl := (List.cons.inj hb).1
  revert hshape
  decide

/-- C3, amended. For every request the handler writes exactly one body, and
that body is either a success document (a response map without error list,
which for a resource whose name is neither `linked` nor `links` holds the
fetched payload in its primary field and has no field besides the primary
field, `linked` and `links`) or the error envelope (an error list, no primary
field, no `linked`, no `links`), never both. In particular, when the primary
`Get` succeeds and the `Get` of the relation's target then fails, the one
body written is the envelope holding that error alone, and it has no primary
field. -/
theorem handler_all_or_nothing (lower : String → String) (name rel source : String)
    (getter dest : UintGetter) (order : KeyOrder)
    (extractor : Document → IdMap → Outcome IdMap) (ret : Include → Option linked)
    (req : Request) :
    (∃ b, (serve lower name rel source getter dest order extractor ret req).bodies = [b] ∧
        ((b.errorList = none ∧
            (name ≠ "linked" → name ≠ "links" →
              b.isSuccessDocument name
                  (primaryValue (getter.Get (splitUintIds req.ids).1).1) = true ∧
                ∀ key, key ≠ name → key ≠ "linked" → key ≠ "links" → b.field key = none)) ∨
          b.isErrorEnvelope name = true) ∧
        ¬ (b.errorList = none ∧ b.isErrorEnvelope name = true)) ∧
      ∀ docs err, (splitUintIds req.ids).2 = none →
        (getter.Get (splitUintIds req.ids).1).2 = none →
        (makeUintResourceGetter order dest extractor
          (getter.Get (splitUintIds req.ids).1).1).result = .returned (docs, some err) →
        (serve lower name rel source getter dest order extractor ret req).bodies
            = [.envelope { Errors := [.error err] }] ∧
          (Body.envelope { Errors := [.error err] }).isErrorEnvelope name = true ∧
          (Body.envelope { Errors := [.error err] }).field name = none := by
  have henv : ∀ es : List Entry,
      (Body.envelope { Errors := es }).isErrorEnvelope name = true := fun es => by
    simp [Body.isErrorEnvelope, Body.errorList, Body.field]
  have hnot : ∀ es : List Entry,
      ¬ ((Body.envelope { Errors := es }).errorList = none ∧
          (Body.envelope { Errors := es }).isErrorEnvelope name = true) := fun es => by
    simp [Body.errorList]
  rcases serve_cases lower name rel source getter dest order extractor ret req with
    ⟨hparse, hs⟩ | ⟨hparse, err, hget, hs⟩ | ⟨hparse, hget, v, hrel, hs⟩ |
    ⟨hparse, hget, docs, err, hrel, hs⟩ | ⟨hparse, hget, docs, hrel, hs⟩
  · refine ⟨⟨_, by rw [hs], Or.inr (henv _), hnot _⟩, fun _ _ h => absurd h hparse⟩
  · refine ⟨⟨_, by rw [hs], Or.inr (henv _), hnot _⟩, fun _ _ _ h => ?_⟩
    rw [hget] at h
    simp at h
  · constructor
    · cases v with
      | value e =>
        exact ⟨_, by rw [hs]; rfl, Or.inr (henv _), hnot _⟩
      | ifaceSlice es =>
        exact ⟨_, by rw [hs]; rfl, Or.inr (henv _), hnot _⟩
    · intro docs err _ _ h
      rw [hrel] at h
      simp at h
  · refine ⟨⟨_, by rw [hs], Or.inr (henv _), hnot _⟩, fun docs2 err2 _ _ h => ?_⟩
    rw [hrel] at h
    simp only [Outcome.returned.injEq, Prod.mk.injEq, Option.some.injEq] at h
    obtain ⟨_, rfl⟩ := h
    exact ⟨by rw [hs], henv _, rfl⟩
  · constructor
    · refine ⟨Body.resp _, by rw [hs], Or.inl ⟨rfl, fun h1 h2 => ⟨?_, ?_⟩⟩, ?_⟩
      · simp only [Body.isSuccessDocument, Body.field, Body.errorList]
        split
        · simp [assign_chain_get _ _ _ _ h1 h2]
        · simp [assign_single_get]
      · intro key h0 hk1 hk2
        simp only [Body.field]
        split
        · exact assign_chain_get_other _ _ _ _ _ h0 hk1 hk2
        · exact assign_single_get_other _ _ _ h0
      · simp [Body.isErrorEnvelope, Body.errorList]
    · intro docs2 err _ _ h
      rw [hrel] at h
      simp at h

/-- C3, amended, at concrete requests to `widgets`: when the target of the
relation fails after the primary `Get` succeeded, the one body is the envelope
with the target's error; when every stage succeeds, the one body is the
success document holding the fetched widget. -/
theorem handler_all_or_nothing_witness :
    (serve ToLowerASCII "widgets" "owner" "Widget"
        (fixedGetter "Widget" [{ id := 1, links := [.uint64 10] }])
        (failingGetter "User" "users are down") insertionOrder
        (idExtractor .toOne (fixedField (.uint64 10)))
        (assembleLinked "owner") { ids := "1", RequestURI := "/widgets/1" }).bodies
        = [.envelope { Errors := [.error (.text "users are down")] }] ∧
      ∃ b, (serve ToLowerASCII "widgets" "owner" "Widget"
          (fixedGetter "Widget" [{ id := 1, links := [.uint64 10] }])
          (echoGetter "User") insertionOrder (idExtractor .toOne (fixedField (.uint64 10)))
          (assembleLinked "owner") { ids := "1", RequestURI := "/widgets/1" }).bodies = [b] ∧
        b.isSuccessDocument "widgets" (.single { id := 1, links := [.uint64 10] }) = true := by
  refine ⟨((handler_all_or_nothing ToLowerASCII "widgets" "owner" "Widget"
      (fixedGetter "Widget" [{ id := 1, links := [.uint64 10] }])
      (failingGetter "User" "users are down") insertionOrder
      (idExtractor .toOne (fixedField (.uint64 10)))
      (assembleLinked "owner") { ids := "1", RequestURI := "/widgets/1" }).2 []
      (.text "users are down") (by decide) (by decide) (by decide)).1, ?_⟩
  obtain ⟨b, hb, hshape, _⟩ := (handler_all_or_nothing ToLowerASCII "widgets" "owner" "Widget"
    (fixedGetter "Widget" [{ id := 1, links := [.uint64 10] }])
    (echoGetter "User") insertionOrder (idExtractor .toOne (fixedField (.uint64 10)))
    (assembleLinked "owner") { ids := "1", RequestURI := "/widgets/1" }).1
  rcases hshape with ⟨_, hok⟩ | henv
  · exact ⟨b, hb, (hok (by decide) (by decide)).1⟩
  · have hbodies : (serve ToLowerASCII "widgets" "owner" "Widget"
        (fixedGetter "Widget" [{ id := 1, links := [.uint64 10] }])
        (echoGetter "User") insertionOrder (idExtractor .toOne (fixedField (.uint64 10)))
        (assembleLinked "owner") { ids := "1", RequestURI := "/widgets/1" }).bodies
        = [.resp [("widgets", .single { id := 1, links := [.uint64 10] }),
            ("linked", .linked [("owner", [{ id := 10, links := [] }])]),
            ("links", .links [("owner", { Href := "", Typ := "users" })])]] := by decide
    rw [hbodies] at hb
    obtain rfl := (List.cons.inj hb).1
    exact absurd henv (by decide)

theorem serve_primary (lower : String → String) (name rel source : String)
    (getter dest : UintGetter) (order : KeyOrder)
    (extractor : Document → IdMap → Outcome IdMap) (ret : Include → Option linked)
    (req : Request) (included : List Document) (h1 : name ≠ "linked") (h2 : name ≠ "links")
    (hparse : (splitUintIds req.ids).2 = none)
    (hget : (getter.Get (splitUintIds req.ids).1).2 = none)
    (hrel : (makeUintResourceGetter order dest extractor
      (getter.Get (splitUintIds req.ids).1).1).result = .returned (included, none)) :
    ∃ m : RespMap,
      (serve lower name rel source getter dest order extractor ret req).bodies = [.resp m] ∧
      m.get name = some (primaryValue (getter.Get (splitUintIds req.ids).1).1) := by
  unfold serve
  rw [makeUintGetHandler_success lower name rel source dest.typeName getter _ ret _ req included
    hparse hget hrel]
  refine ⟨_, rfl, ?_⟩
  split
  · exact assign_chain_get _ _ _ _ h1 h2
  · exact assign_single_get _ _

theorem primaryValue_collection (resources : List Document) (h : resources.length ≠ 1) :
    primaryValue resources = .collection resources := by
  unfold primaryValue
  split
  · simp at h
  · rfl

/-- C6 as stated fails: a request naming the two identifiers `1,2` whose `Get`
returns exactly one record gets that record as the primary field, not a
collection. -/
theorem primary_shape_by_request_counterexample :
    (splitUintIds "1,2").1.length = 2 ∧
      (fixedGetter "Widget" [{ id := 1, links := [] }]).Get (splitUintIds "1,2").1
        = ([{ id := 1, links := [] }], none) ∧
      (makeUintGetHandler "widgets" (fixedGetter "Widget" [{ id := 1, links := [] }]) noIncluder
        ResponseWriter.fresh { ids := "1,2", RequestURI := "/widgets/1,2" }).bodies
        = [.resp [("widgets", .single { id := 1, links := [] })]] ∧
      (makeUintGetHandler "widgets" (fixedGetter "Widget" [{ id := 1, links := [] }]) noIncluder
        ResponseWriter.fresh { ids := "1,2", RequestURI := "/widgets/1,2" }).bodies
        ≠ [.resp [("widgets", .collection [{ id := 1, links := [] }])]] := by
  decide

/-- C6, amended. For every successful request to a resource whose name is
neither `linked` nor `links`: if the request names a single identifier and
`Get` returns exactly one record, the primary field holds that one Document; if
the request names two or more identifiers and `Get` returns a number of records
other than one, the primary field holds the collection of them; and when `Get`
returns exactly one record the primary field holds that one Document however
many identifiers the request names. -/
theorem primary_shape_by_request (lower : String → String) (name rel source : String)
    (getter dest : UintGetter) (order : KeyOrder)
    (extractor : Document → IdMap → Outcome IdMap) (ret : Include → Option linked)
    (req : Request) (resources included : List Document)
    (h1 : name ≠ "linked") (h2 : name ≠ "links")
    (hparse : (splitUintIds req.ids).2 = none)
    (hget : getter.Get (splitUintIds req.ids).1 = (resources, none))
    (hrel : (makeUintResourceGetter order dest extractor resources).result
      = .returned (included, none)) :
    ∃ m : RespMap,
      (serve lower name rel source getter dest order extractor ret req).bodies = [.resp m] ∧
      ((splitUintIds req.ids).1.length = 1 → resources.length = 1 →
        ∃ d, resources = [d] ∧ m.get name = some (.single d)) ∧
      (2 ≤ (splitUintIds req.ids).1.length → resources.length ≠ 1 →
        m.get name = some (.collection resources)) ∧
      (∀ d, resources = [d] → m.get name = some (.single d)) := by
  have hget2 : (getter.Get (splitUintIds req.ids).1).2 = none := by rw [hget]
  have hres : (getter.Get (splitUintIds req.ids).1).1 = resources := by rw [hget]
  obtain ⟨m, hm, hprimary⟩ := serve_primary lower name rel source getter dest order extractor
    ret req included h1 h2 hparse hget2 (by rw [hres]; exact hrel)
  rw [hres] at hprimary
  refine ⟨m, hm, ?_, ?_, ?_⟩
  · intro _ hlen
    obtain ⟨d, rfl⟩ := List.length_eq_one.mp hlen
    exact ⟨d, rfl, hprimary⟩
  · intro _ hlen
    rw [hprimary, primaryValue_collection resources hlen]
  · rintro d rfl
    exact hprimary

/-- C6, amended, at a concrete request: two identifiers named, one record
returned, and the primary field is the single Document. -/
theorem primary_shape_by_request_witness :
    ∃ m : RespMap, (serve ToLowerASCII "widgets" "owner" "Widget"
        (fixedGetter "Widget" [{ id := 1, links := [.uint64 10] }])
        (echoGetter "User") insertionOrder (idExtractor .toOne (fixedField (.uint64 10)))
        (assembleLinked "owner") { ids := "1,2", RequestURI := "/widgets/1,2" }).bodies
        = [.resp m] ∧
      m.get "widgets" = some (.single { id := 1, links := [.uint64 10] }) := by
  obtain ⟨m, hm, _, _, hone⟩ := primary_shape_by_request ToLowerASCII "widgets" "owner" "Widget"
    (fixedGetter "Widget" [{ id := 1, links := [.uint64 10] }])
    (echoGetter "User") insertionOrder (idExtractor .toOne (fixedField (.uint64 10))) (assembleLinked "owner")
    { ids := "1,2", RequestURI := "/widgets/1,2" } [{ id := 1, links := [.uint64 10] }]
    [{ id := 10, links := [] }]
    (by decide) (by decide) (by decide) (by decide) (by decide)
  exact ⟨m, hm, hone _ rfl⟩

/-- C7 as stated fails for a resource type named `Link`: its pluralized name is
`links`, and the `links` entry the handler stores after the primary field
replaces it, so the response has no field holding the fetched Document. -/
theorem primary_shape_by_result_counterexample :
    resourceName ToLowerASCII "Link" = "links" ∧
      ∃ route h, NewRessourceHandler ToLowerASCII
          (fixedGetter "Link" [{ id := 1, links := [.uint64 10] }])
          (makeIncluder ToLowerASCII "owner" "Link" "User"
            (makeUintResourceGetter insertionOrder (echoGetter "User")
              (idExtractor .toOne (fixedField (.uint64 10))))
            (assembleLinked "owner")) = some (route, h) ∧
        (h ResponseWriter.fresh { ids := "1", RequestURI := "/links/1" }).bodies
          = [.resp [("links", .links [("owner", { Href := "", Typ := "users" })]),
              ("linked", .linked [("owner", [{ id := 10, links := [] }])])]] ∧
        ∀ b ∈ (h ResponseWriter.fresh { ids := "1", RequestURI := "/links/1" }).bodies,
          b.field "links" ≠ some (.single { id := 1, links := [.uint64 10] }) := by
  refine ⟨by decide, _, _, rfl, by decide, by decide⟩

/-- C7, amended. For every successful request to the handler registered by
`NewRessourceHandler` for a resource whose lower-cased type name is not `link`,
the response has a primary field keyed by the pluralized name (lower-cased type
name followed by `s`); its value is the single Document when `Get` returned
exactly one Document, and the full returned sequence, in the order `Get`
returned it, otherwise (also when `Get` returned none). -/
theorem primary_shape_by_result (lower : String → String) (rel : String)
    (resource dest : UintGetter) (order : KeyOrder)
    (extractor : Document → IdMap → Outcome IdMap) (ret : Include → Option linked)
    (req : Request) (resources included : List Document)
    (route : String) (h : ResponseWriter → Request → ResponseWriter)
    (hreg : NewRessourceHandler lower resource
      (makeIncluder lower rel resource.typeName dest.typeName
        (makeUintResourceGetter order dest extractor) ret) = some (route, h))
    (hname : lower resource.typeName ≠ "link")
    (hparse : (splitUintIds req.ids).2 = none)
    (hget : resource.Get (splitUintIds req.ids).1 = (resources, none))
    (hrel : (makeUintResourceGetter order dest extractor resources).result
      = .returned (included, none)) :
    ∃ m : RespMap, (h ResponseWriter.fresh req).bodies = [.resp m] ∧
      (∀ d, resources = [d] →
        m.get (lower resource.typeName ++ "s") = some (.single d)) ∧
      (resources.length ≠ 1 →
        m.get (lower resource.typeName ++ "s") = some (.collection resources)) := by
  have h1 : lower resource.typeName ++ "s" ≠ "linked" := append_s_ne_linked _
  have h2 : lower resource.typeName ++ "s" ≠ "links" := append_s_ne_links _ hname
  have hget2 : (resource.Get (splitUintIds req.ids).1).2 = none := by rw [hget]
  have hres : (resource.Get (splitUintIds req.ids).1).1 = resources := by rw [hget]
  obtain ⟨m, hm, hprimary⟩ := serve_primary lower (lower resource.typeName ++ "s") rel
    resource.typeName resource dest order extractor ret req included h1 h2 hparse hget2
    (by rw [hres]; exact hrel)
  rw [hres] at hprimary
  have hh : h = makeUintGetHandler (lower resource.typeName ++ "s") resource
      (makeIncluder lower rel resource.typeName dest.typeName
        (makeUintResourceGetter order dest extractor) ret) := by
    unfold NewRessourceHandler at hreg
    split at hreg
    · simp at hreg
    · simp only [Option.some.injEq, Prod.mk.injEq] at hreg
      exact hreg.2.symm
  refine ⟨m, ?_, ?_, ?_⟩
  · rw [hh]
    exact hm
  · rintro d rfl
    exact hprimary
  · intro hlen
    rw [hprimary, primaryValue_collection resources hlen]

/-- C7, amended, at a concrete request to a resource type `Widget`: `Get`
returns no record and the primary field `widgets` is the empty sequence. -/
theorem primary_shape_by_result_witness :
    ∃ m : RespMap,
      (makeUintGetHandler "widgets" (fixedGetter "Widget" [])
        (makeIncluder ToLowerASCII "owner" "Widget" "User"
          (makeUintResourceGetter insertionOrder (echoGetter "User")
            (idExtractor .toOne (fixedField (.uint64 10))))
          (assembleLinked "owner"))
        ResponseWriter.fresh { ids := "4", RequestURI := "/widgets/4" }).bodies = [.resp m] ∧
      m.get "widgets" = some (.collection []) := by
  obtain ⟨m, hm, _, hcoll⟩ := primary_shape_by_result ToLowerASCII "owner"
    (fixedGetter "Widget" [])
    (echoGetter "User") insertionOrder (idExtractor .toOne (fixedField (.uint64 10))) (assembleLinked "owner")
    { ids := "4", RequestURI := "/widgets/4" } [] [] "/widgets#ids"
    (makeUintGetHandler "widgets" (fixedGetter "Widget" [])
      (makeIncluder ToLowerASCII "owner" "Widget" "User"
        (makeUintResourceGetter insertionOrder (echoGetter "User")
          (idExtractor .toOne (fixedField (.uint64 10))))
        (assembleLinked "owner")))
    (by
      unfold NewRessourceHandler
      rw [if_neg (by decide)]
      have ht : ToLowerASCII (fixedGetter "Widget" []).typeName ++ "s" = "widgets" := by decide
      have hr : "/" ++ "widgets" ++ "#ids" = "/widgets#ids" := by decide
      simp only [ht, hr]
      rfl)
    (by decide) (by decide) (by decide) (by decide)
  have ht : ToLowerASCII (fixedGetter "Widget" []).typeName ++ "s" = "widgets" := by decide
  rw [ht] at hcoll
  exact ⟨m, hm, hcoll (by decide)⟩

/-! ## Failures: the claims -/

/-- C9 as stated fails: on `7,abc` the call returns the error together with the
slice `[7, 0]`, whose first entry is the identifier parsed from the valid
segment before the offending one. -/
theorem splitUintIds_no_partial_counterexample :
    splitUintIds "7,abc"
      = ([7, 0], some { Func := "ParseUint", Num := "abc", Err := .ErrSyntax }) ∧
      (splitUintIds "7,abc").2 ≠ none ∧ (splitUintIds "7,abc").1 ≠ [] ∧
      (ParseUint "7").1 ∈ (splitUintIds "7,abc").1 := by
  decide

/-- C9, amended. For every input on which `splitUintIds` fails, the error is
returned together with a slice that has one entry per segment: the parsed
values of the valid segments before the first offending one, then the value
`ParseUint` returned for the offending segment, then zeros. The handler uses
none of it: whatever the getter and the includer, it writes status 400 and an
envelope whose single entry names the request. -/
theorem splitUintIds_failure (idString : String) (h : (splitUintIds idString).2 ≠ none) :
    (∃ pre bad post, Split idString = pre ++ bad :: post ∧
        (∀ seg ∈ pre, (ParseUint seg).2 = none) ∧ (ParseUint bad).2 ≠ none ∧
        (splitUintIds idString).1
          = pre.map (fun seg => (ParseUint seg).1)
              ++ (ParseUint bad).1 :: List.replicate post.length 0) ∧
      ∀ (name uri : String) (getter : UintGetter) (inc : includer),
        makeUintGetHandler name getter inc ResponseWriter.fresh
            { ids := idString, RequestURI := uri }
          = { headers := [StatusBadRequest],
              bodies := [.envelope { Errors := [.error (.text ("Invalid request: " ++ uri))] }] } := by
  constructor
  · have hbad : ∃ seg ∈ Split idString, (ParseUint seg).2 ≠ none := by
      by_contra hall
      have hvalid : ∀ seg ∈ Split idString, (ParseUint seg).2 = none := by
        intro seg hseg
        by_contra hne
        exact hall ⟨seg, hseg, hne⟩
      have := splitUintIdsLoop_valid (Split idString) []
        (List.replicate (Split idString).length 0) (by simp) hvalid
      apply h
      simp only [splitUintIds]
      simp only [List.length_nil, List.nil_append] at this
      rw [this]
    obtain ⟨pre, bad, post, hsplit, hpre, hb⟩ := exists_first_invalid (Split idString) hbad
    obtain ⟨e, he⟩ := Option.ne_none_iff_exists'.mp hb
    refine ⟨pre, bad, post, hsplit, hpre, hb, ?_⟩
    rw [splitUintIds_of_first_invalid idString pre bad post e hsplit hpre he]
  · intro name uri getter inc
    rw [makeUintGetHandler_parse_error name getter inc _ _ h]
    rfl

/-- C9, amended, at the input `7,abc,9`: the slice returned with the error is
`[7, 0, 0]`. -/
theorem splitUintIds_failure_witness :
    (splitUintIds "7,abc,9").2 ≠ none ∧ (splitUintIds "7,abc,9").1 = [7, 0, 0] ∧
      ∃ pre bad post, Split "7,abc,9" = pre ++ bad :: post ∧
        (∀ seg ∈ pre, (ParseUint seg).2 = none) ∧ (ParseUint bad).2 ≠ none ∧
        (splitUintIds "7,abc,9").1
          = pre.map (fun seg => (ParseUint seg).1)
              ++ (ParseUint bad).1 :: List.replicate post.length 0 :=
  ⟨by decide, by decide, (splitUintIds_failure "7,abc,9" (by decide)).1⟩

theorem extractAll_panicked (extractor : Document → IdMap → Outcome IdMap)
    (resources : List Document) :
    ∀ (idMap : IdMap) (v : PanicValue), extractAll extractor resources idMap = .panicked v →
      ∃ r m, extractor r m = .panicked v := by
  induction resources with
  | nil => intro idMap v h; simp [extractAll] at h
  | cons r rest ih =>
    intro idMap v h
    unfold extractAll at h
    cases hr : extractor r idMap with
    | returned m =>
      rw [hr] at h
      exact ih m v h
    | panicked w =>
      rw [hr] at h
      simp only [Outcome.panicked.injEq] at h
      subst h
      exact ⟨r, idMap, hr⟩

theorem makeUintResourceGetter_panicked (order : KeyOrder) (dest : UintGetter)
    (extractor : Document → IdMap → Outcome IdMap) (resources : List Document) (v : PanicValue)
    (h : (makeUintResourceGetter order dest extractor resources).result = .panicked v) :
    ∃ r m, extractor r m = .panicked v := by
  unfold makeUintResourceGetter at h
  cases he : extractAll extractor resources [] with
  | returned m =>
    rw [he] at h
    simp at h
  | panicked w =>
    rw [he] at h
    simp only [Outcome.panicked.injEq] at h
    subst h
    exact extractAll_panicked extractor resources [] w he

/-- C10 as stated fails: a failure that carries the two errors of a `[]error`
(the type `Create` and `Set` return) is not a `[]interface{}`, so the envelope
has one entry, the slice as a whole, and not the two errors as its entries. -/
theorem respondWithErrors_counterexample :
    (respondWithErrors ResponseWriter.fresh
        (some (.value (.errorSlice [.text "name missing", .text "age negative"])))).bodies
      = [.envelope { Errors := [.errorSlice [.text "name missing", .text "age negative"]] }] ∧
      (respondWithErrors ResponseWriter.fresh
        (some (.value (.errorSlice [.text "name missing", .text "age negative"])))).bodies
      ≠ [.envelope { Errors := [.error (.text "name missing"), .error (.text "age negative")] }] := by
  decide

/-- C10, amended. For every failure whose panic value is a `[]interface{}` of
`n` errors, the envelope written by `respondWithErrors` has exactly those `n`
entries, in the same order; a failure carrying one error value gives an
envelope with exactly that one entry, which holds for each failure the handler
raises (identifier list, primary `Get`, relation `Get`, and a panic of the
extractor that carries one error value, as a failed type assertion does); and
nothing is written when no failure was raised. -/
theorem respondWithErrors_keeps_errors (rw : ResponseWriter) :
    (∀ errs : List Entry,
        respondWithErrors rw (some (.ifaceSlice errs))
          = { headers := rw.headers, bodies := rw.bodies ++ [.envelope { Errors := errs }] }) ∧
      (∀ err : GoError,
        respondWithErrors rw (some (.value (.error err)))
          = { headers := rw.headers, bodies := rw.bodies ++ [.envelope { Errors := [.error err] }] }) ∧
      respondWithErrors rw none = rw ∧
      ∀ (lower : String → String) (name rel source : String) (getter dest : UintGetter)
        (order : KeyOrder) (extractor : Document → IdMap → Outcome IdMap)
        (ret : Include → Option linked) (req : Request),
        (∀ r m v, extractor r m = .panicked v → ∃ err, v = .value (.error err)) →
        (∃ err, (serve lower name rel source getter dest order extractor ret req).bodies
            = [.envelope { Errors := [.error err] }]) ∨
          ((serve lower name rel source getter dest order extractor ret req).headers = [] ∧
            ∃ m, (serve lower name rel source getter dest order extractor ret req).bodies
              = [.resp m]) := by
  refine ⟨fun _ => rfl, fun _ => rfl, rfl, ?_⟩
  intro lower name rel source getter dest order extractor ret req hpanic
  rcases serve_cases lower name rel source getter dest order extractor ret req with
    ⟨_, hs⟩ | ⟨_, err, _, hs⟩ | ⟨_, _, v, hrel, hs⟩ |
    ⟨_, _, docs, err, _, hs⟩ | ⟨_, _, docs, _, hs⟩
  · exact Or.inl ⟨_, by rw [hs]⟩
  · exact Or.inl ⟨_, by rw [hs]⟩
  · obtain ⟨r, m, hex⟩ := makeUintResourceGetter_panicked order dest extractor _ v hrel
    obtain ⟨err, rfl⟩ := hpanic r m v hex
    exact Or.inl ⟨err, by rw [hs]; rfl⟩
  · exact Or.inl ⟨_, by rw [hs]⟩
  · exact Or.inr ⟨by rw [hs], _, by rw [hs]⟩

/-- C10, amended, at concrete failures: a `[]interface{}` of two errors gives
two entries, and a request whose extractor fails its type assertion gives the
envelope with that one runtime error. -/
theorem respondWithErrors_keeps_errors_witness :
    (respondWithErrors ResponseWriter.fresh
        (some (.ifaceSlice [.error (.text "name missing"), .error (.text "age negative")]))).bodies
      = [.envelope { Errors := [.error (.text "name missing"), .error (.text "age negative")] }] ∧
      ((∃ err, (serve ToLowerASCII "widgets" "owner" "Widget"
          (fixedGetter "Widget" [{ id := 1, links := [.other "uint32"] }])
          (echoGetter "User") insertionOrder (idExtractor .toOne (fixedField (.other "uint32")))
          (assembleLinked "owner") { ids := "1", RequestURI := "/widgets/1" }).bodies
            = [.envelope { Errors := [.error err] }]) ∨
        ((serve ToLowerASCII "widgets" "owner" "Widget"
          (fixedGetter "Widget" [{ id := 1, links := [.other "uint32"] }])
          (echoGetter "User") insertionOrder (idExtractor .toOne (fixedField (.other "uint32")))
          (assembleLinked "owner") { ids := "1", RequestURI := "/widgets/1" }).headers = [] ∧
          ∃ m, (serve ToLowerASCII "widgets" "owner" "Widget"
            (fixedGetter "Widget" [{ id := 1, links := [.other "uint32"] }])
            (echoGetter "User") insertionOrder (idExtractor .toOne (fixedField (.other "uint32")))
            (assembleLinked "owner") { ids := "1", RequestURI := "/widgets/1" }).bodies
              = [.resp m])) :=
  ⟨by
      rw [(respondWithErrors_keeps_errors ResponseWriter.fresh).1]
      rfl,
    (respondWithErrors_keeps_errors ResponseWriter.fresh).2.2.2 ToLowerASCII "widgets" "owner"
      "Widget" (fixedGetter "Widget" [{ id := 1, links := [.other "uint32"] }])
      (echoGetter "User") insertionOrder (idExtractor .toOne (fixedField (.other "uint32")))
      (assembleLinked "owner") { ids := "1", RequestURI := "/widgets/1" }
      (by
        intro r m v hv
        unfold idExtractor at hv
        split at hv
        · simp at hv
        · simp at hv
        · exact ⟨_, (Outcome.panicked.inj hv).symm⟩)⟩

/-! ## Batch getter: lemmas and claims -/

theorem store_nodup (idMap : IdMap) (id : Nat) (h : idMap.Nodup) : (idMap.store id).Nodup := by
  unfold IdMap.store
  split
  · exact h
  · rename_i hmem
    exact List.nodup_append.mpr ⟨h, List.nodup_singleton id, by
      intro a ha hb
      rw [List.mem_singleton] at hb
      exact hmem (hb ▸ ha)⟩

theorem mem_store (idMap : IdMap) (id x : Nat) : x ∈ idMap.store id ↔ x ∈ idMap ∨ x = id := by
  unfold IdMap.store
  split
  · rename_i hmem
    constructor
    · exact Or.inl
    · rintro (h | rfl)
      · exact h
      · exact hmem
  · simp

theorem store_length (idMap : IdMap) (id : Nat) : (idMap.store id).length ≤ idMap.length + 1 := by
  unfold IdMap.store
  split <;> simp

theorem foldl_store (ids : List Nat) :
    ∀ idMap : IdMap, idMap.Nodup →
      (ids.foldl IdMap.store idMap).Nodup ∧
        (∀ x, x ∈ ids.foldl IdMap.store idMap ↔ x ∈ idMap ∨ x ∈ ids) ∧
        (ids.foldl IdMap.store idMap).length ≤ idMap.length + ids.length := by
  induction ids with
  | nil => intro idMap h; simp [h]
  | cons id ids ih =>
    intro idMap h
    obtain ⟨hnd, hmem, hlen⟩ := ih (idMap.store id) (store_nodup idMap id h)
    refine ⟨hnd, ?_, ?_⟩
    · intro x
      rw [List.foldl_cons, hmem, mem_store, List.mem_cons]
      tauto
    · have := store_length idMap id
      simp only [List.foldl_cons, List.length_cons]
      omega

theorem idExtractor_of_assert (kind : RefKind) (read : Document → FieldValue) (res : Document)
    (idMap : IdMap) (ids : List Nat) (h : assertIds kind (read res) = some ids) :
    idExtractor kind read res idMap = .returned (ids.foldl IdMap.store idMap) := by
  unfold idExtractor
  cases kind <;> cases hv : read res <;> simp [assertIds, hv] at h ⊢ <;> subst h <;> rfl

theorem idExtractor_of_assert_none (kind : RefKind) (read : Document → FieldValue)
    (res : Document) (idMap : IdMap) (h : assertIds kind (read res) = none) :
    idExtractor kind read res idMap = .panicked typeAssertionPanic := by
  unfold idExtractor
  cases kind <;> cases hv : read res <;> simp [assertIds, hv] at h ⊢

theorem extractAll_idExtractor (kind : RefKind) (read : Document → FieldValue)
    (resources : List Document) :
    ∀ idMap : IdMap, idMap.Nodup →
      (∀ d ∈ resources, (assertIds kind (read d)).isSome = true) →
      ∃ m : IdMap, extractAll (idExtractor kind read) resources idMap = .returned m ∧
        m.Nodup ∧
        (∀ x, x ∈ m ↔
          x ∈ idMap ∨ ∃ d ∈ resources, ∃ ids, assertIds kind (read d) = some ids ∧ x ∈ ids) ∧
        m.length ≤ idMap.length + totalReferences kind read resources := by
  induction resources with
  | nil =>
    intro idMap h _
    exact ⟨idMap, rfl, h, by simp, by simp [totalReferences]⟩
  | cons r resources ih =>
    intro idMap h hassert
    obtain ⟨ids, hids⟩ := Option.isSome_iff_exists.mp (hassert r (by simp))
    obtain ⟨hnd1, hmem1, hlen1⟩ := foldl_store ids idMap h
    obtain ⟨m, hm, hnd, hmem, hlen⟩ := ih (ids.foldl IdMap.store idMap) hnd1
      (fun d hd => hassert d (by simp [hd]))
    refine ⟨m, ?_, hnd, ?_, ?_⟩
    · unfold extractAll
      rw [idExtractor_of_assert kind read r idMap ids hids]
      exact hm
    · intro x
      rw [hmem, hmem1]
      constructor
      · rintro ((hx | hx) | ⟨d, hd, l, hl, hx⟩)
        · exact Or.inl hx
        · exact Or.inr ⟨r, by simp, ids, hids, hx⟩
        · exact Or.inr ⟨d, by simp [hd], l, hl, hx⟩
      · rintro (hx | ⟨d, hd, l, hl, hx⟩)
        · exact Or.inl (Or.inl hx)
        · rcases List.mem_cons.mp hd with rfl | hd
          · rw [hids] at hl
            simp only [Option.some.injEq] at hl
            subst hl
            exact Or.inl (Or.inr hx)
          · exact Or.inr ⟨d, hd, l, hl, hx⟩
    · simp only [totalReferences, List.map_cons, List.sum_cons, hids, Option.getD_some] at hlen ⊢
      omega

/-- C1 as stated fails: line 207 admits every field convertible to `uint64`,
and for a field of type `uint32` the `.(uint64)` assertion of the closure
panics on the first document, so the getter ends in that panic and has made no
`Get` call. -/
theorem batch_fetch_counterexample :
    makeUintResourceGetter insertionOrder (echoGetter "User")
        (idExtractor .toOne (fixedField (.other "uint32")))
        [{ id := 1, links := [] }, { id := 2, links := [] }]
      = { calls := [], result := .panicked typeAssertionPanic } ∧
      (makeUintResourceGetter insertionOrder (echoGetter "User")
        (idExtractor .toOne (fixedField (.other "uint32")))
        [{ id := 1, links := [] }, { id := 2, links := [] }]).calls.length ≠ 1 := by
  constructor
  · rfl
  · decide

/-- C1, amended. For every result set and every id extractor `getUintIncluders`
builds (to-one or to-many closure, whatever its reflection expression reads)
whose type assertion holds on every document of the result set, and whatever
order the map is iterated in, `makeUintResourceGetter` issues exactly one `Get`
call, to the relation's target; the identifier list it passes has no
identifier twice, holds exactly the identifiers the extractor yields over the
documents of the result set, and is at most as long as the total number of
references across those documents; the getter returns what that one call
returned. -/
theorem batch_fetch (order : KeyOrder) (dest : UintGetter) (kind : RefKind)
    (read : Document → FieldValue) (resources : List Document)
    (hassert : ∀ d ∈ resources, (assertIds kind (read d)).isSome = true) :
    ∃ ids : List Nat,
      (makeUintResourceGetter order dest (idExtractor kind read) resources).calls
          = [{ target := dest.typeName, ids := ids }] ∧
        ids.Nodup ∧
        (∀ id, id ∈ ids ↔
          ∃ d ∈ resources, ∃ l, assertIds kind (read d) = some l ∧ id ∈ l) ∧
        ids.length ≤ totalReferences kind read resources ∧
        (makeUintResourceGetter order dest (idExtractor kind read) resources).result
          = .returned (dest.Get ids) := by
  obtain ⟨m, hm, hnd, hmem, hlen⟩ :=
    extractAll_idExtractor kind read resources [] List.nodup_nil hassert
  have hperm := order.perm m
  have hres : makeUintResourceGetter order dest (idExtractor kind read) resources
      = { calls := [{ target := dest.typeName, ids := order.keys m }],
          result := .returned (dest.Get (order.keys m)) } := by
    simp only [makeUintResourceGetter, hm]
  refine ⟨order.keys m, by rw [hres], hperm.nodup_iff.mpr hnd, ?_, ?_, by rw [hres]⟩
  · intro id
    rw [hperm.mem_iff, hmem]
    simp
  · rw [hperm.length_eq]
    simpa using hlen

/-- C1, amended, on the scenario of section 8: the reference read for widgets
1 and 2 is user 10 both times, and the one call made is `Get([10])` against
`User`. -/
theorem batch_fetch_witness :
    (∀ d ∈ [({ id := 1, links := [.uint64 10] } : Document), { id := 2, links := [.uint64 10] }],
        (assertIds .toOne (fixedField (.uint64 10) d)).isSome = true) ∧
      (makeUintResourceGetter insertionOrder (echoGetter "User")
        (idExtractor .toOne (fixedField (.uint64 10)))
        [{ id := 1, links := [.uint64 10] }, { id := 2, links := [.uint64 10] }]).calls
        = [{ target := "User", ids := [10] }] ∧
      ∃ ids : List Nat,
        (makeUintResourceGetter insertionOrder (echoGetter "User")
          (idExtractor .toOne (fixedField (.uint64 10)))
          [{ id := 1, links := [.uint64 10] }, { id := 2, links := [.uint64 10] }]).calls
            = [{ target := (echoGetter "User").typeName, ids := ids }] ∧
          ids.Nodup ∧
          (∀ id, id ∈ ids ↔
            ∃ d ∈ [({ id := 1, links := [.uint64 10] } : Document),
                { id := 2, links := [.uint64 10] }],
              ∃ l, assertIds .toOne (fixedField (.uint64 10) d) = some l ∧ id ∈ l) ∧
          ids.length ≤ totalReferences .toOne (fixedField (.uint64 10))
            [{ id := 1, links := [.uint64 10] }, { id := 2, links := [.uint64 10] }] ∧
          (makeUintResourceGetter insertionOrder (echoGetter "User")
            (idExtractor .toOne (fixedField (.uint64 10)))
            [{ id := 1, links := [.uint64 10] }, { id := 2, links := [.uint64 10] }]).result
            = .returned ((echoGetter "User").Get ids) :=
  ⟨by decide, by decide,
    batch_fetch insertionOrder (echoGetter "User") .toOne (fixedField (.uint64 10))
      [{ id := 1, links := [.uint64 10] }, { id := 2, links := [.uint64 10] }] (by decide)⟩

/-- The batch getter on a to-many field, keys visited last stored first: the
tags `3, 4, 3` and `4, 5` of two widgets are asked for as `5, 4, 3`. -/
theorem batch_fetch_sample :
    (makeUintResourceGetter reverseOrder (echoGetter "Tag") (idExtractor .toMany (fieldOf 1))
        [{ id := 1, links := [.uint64 10, .uint64Slice [3, 4, 3]] },
          { id := 2, links := [.uint64 10, .uint64Slice [4, 5]] }]).calls
      = [{ target := "Tag", ids := [5, 4, 3] }] := by
  decide

theorem makeUintResourceGetter_no_ids (order : KeyOrder) (dest : UintGetter) (kind : RefKind)
    (read : Document → FieldValue) (resources : List Document)
    (hyield : ∀ d ∈ resources, assertIds kind (read d) = some []) :
    makeUintResourceGetter order dest (idExtractor kind read) resources
      = { calls := [{ target := dest.typeName, ids := [] }],
          result := .returned (dest.Get []) } := by
  obtain ⟨m, hm, _, hmem, _⟩ := extractAll_idExtractor kind read resources [] List.nodup_nil
    (fun d hd => by rw [hyield d hd]; rfl)
  have hperm := order.perm m
  have hkeys : order.keys m = [] := by
    apply List.eq_nil_iff_forall_not_mem.mpr
    intro x hx
    rw [hperm.mem_iff, hmem] at hx
    rcases hx with hx | ⟨d, hd, l, hl, hx⟩
    · simp at hx
    · rw [hyield d hd] at hl
      simp only [Option.some.injEq] at hl
      subst hl
      simp at hx
  simp only [makeUintResourceGetter, hm, hkeys]

/-- C2 as stated fails: for a result set of one document for which the to-many
closure reads an empty `[]uint64`, the collected identifier set is empty and a
`Get` call is made all the same, carrying the empty identifier list. -/
theorem empty_relation_counterexample :
    (∀ d ∈ [({ id := 1, links := [.uint64Slice []] } : Document)],
        assertIds .toMany (fixedField (.uint64Slice []) d) = some []) ∧
      (makeUintResourceGetter insertionOrder (echoGetter "Tag")
        (idExtractor .toMany (fixedField (.uint64Slice [])))
        [{ id := 1, links := [.uint64Slice []] }]).calls = [{ target := "Tag", ids := [] }] ∧
      (makeUintResourceGetter insertionOrder (echoGetter "Tag")
        (idExtractor .toMany (fixedField (.uint64Slice [])))
        [{ id := 1, links := [.uint64Slice []] }]).calls ≠ [] := by
  decide

/-- C2, amended. For every result set whose documents yield no identifier for a
relation, `makeUintResourceGetter` issues one `Get` call to the relation's
target, carrying the empty identifier list; when that call returns no
documents, the response the handler writes for the result set consists of the
primary field alone, so the relation is in neither `linked` nor `links`. And
whenever the relation produced no included documents, the response consists of
the primary field alone: it has no `linked` and no `links` field at all. The
value the includer hands back is `assembleLinked`. -/
theorem empty_relation (lower : String → String) (name rel source : String)
    (getter dest : UintGetter) (order : KeyOrder) (kind : RefKind)
    (read : Document → FieldValue) (req : Request) (resources : List Document)
    (hyield : ∀ d ∈ resources, assertIds kind (read d) = some []) :
    (makeUintResourceGetter order dest (idExtractor kind read) resources).calls
        = [{ target := dest.typeName, ids := [] }] ∧
      ((splitUintIds req.ids).2 = none →
        getter.Get (splitUintIds req.ids).1 = (resources, none) →
        dest.Get [] = ([], none) →
        (serve lower name rel source getter dest order (idExtractor kind read)
            (assembleLinked rel) req).bodies
          = [.resp [(name, primaryValue resources)]]) ∧
      ∀ (extractor : Document → IdMap → Outcome IdMap) (fetched : List Document),
        (splitUintIds req.ids).2 = none →
        getter.Get (splitUintIds req.ids).1 = (fetched, none) →
        (makeUintResourceGetter order dest extractor fetched).result = .returned ([], none) →
        (serve lower name rel source getter dest order extractor (assembleLinked rel) req).bodies
          = [.resp [(name, primaryValue fetched)]] := by
  have hcall := makeUintResourceGetter_no_ids order dest kind read resources hyield
  have hgeneral : ∀ (extractor : Document → IdMap → Outcome IdMap) (fetched : List Document),
      (splitUintIds req.ids).2 = none →
      getter.Get (splitUintIds req.ids).1 = (fetched, none) →
      (makeUintResourceGetter order dest extractor fetched).result = .returned ([], none) →
      (serve lower name rel source getter dest order extractor (assembleLinked rel) req).bodies
        = [.resp [(name, primaryValue fetched)]] := by
    intro extractor fetched hparse hget hrel
    have hget2 : (getter.Get (splitUintIds req.ids).1).2 = none := by rw [hget]
    have hres : (getter.Get (splitUintIds req.ids).1).1 = fetched := by rw [hget]
    unfold serve
    rw [makeUintGetHandler_success lower name rel source dest.typeName getter _
      (assembleLinked rel) _ req [] hparse hget2 (by rw [hres]; exact hrel), hres]
    simp [assembleLinked, ResponseWriter.WriteJson, ResponseWriter.fresh, RespMap.assign]
  refine ⟨by rw [hcall], ?_, hgeneral⟩
  intro hparse hget hdest
  exact hgeneral (idExtractor kind read) resources hparse hget (by rw [hcall, hdest])

/-- C2, amended, at a concrete request: no tag is read for the two widgets
fetched, the target `Tag` is asked once for no identifiers, and the response is
the primary field alone. -/
theorem empty_relation_witness :
    (∀ d ∈ [({ id := 1, links := [.uint64Slice []] } : Document),
          { id := 2, links := [.uint64Slice []] }],
        assertIds .toMany (fixedField (.uint64Slice []) d) = some []) ∧
      (makeUintResourceGetter insertionOrder (echoGetter "Tag")
        (idExtractor .toMany (fixedField (.uint64Slice [])))
        [{ id := 1, links := [.uint64Slice []] }, { id := 2, links := [.uint64Slice []] }]).calls
        = [{ target := "Tag", ids := [] }] ∧
      (serve ToLowerASCII "widgets" "tags" "Widget"
        (fixedGetter "Widget"
          [{ id := 1, links := [.uint64Slice []] }, { id := 2, links := [.uint64Slice []] }])
        (echoGetter "Tag") insertionOrder (idExtractor .toMany (fixedField (.uint64Slice [])))
        (assembleLinked "tags") { ids := "1,2", RequestURI := "/widgets/1,2" }).bodies
        = [.resp [("widgets", primaryValue
            [{ id := 1, links := [.uint64Slice []] }, { id := 2, links := [.uint64Slice []] }])]] :=
  ⟨by decide,
    (empty_relation ToLowerASCII "widgets" "tags" "Widget"
      (fixedGetter "Widget"
        [{ id := 1, links := [.uint64Slice []] }, { id := 2, links := [.uint64Slice []] }])
      (echoGetter "Tag") insertionOrder .toMany (fixedField (.uint64Slice []))
      { ids := "1,2", RequestURI := "/widgets/1,2" }
      [{ id := 1, links := [.uint64Slice []] }, { id := 2, links := [.uint64Slice []] }]
      (by decide)).1,
    (empty_relation ToLowerASCII "widgets" "tags" "Widget"
      (fixedGetter "Widget"
        [{ id := 1, links := [.uint64Slice []] }, { id := 2, links := [.uint64Slice []] }])
      (echoGetter "Tag") insertionOrder .toMany (fixedField (.uint64Slice []))
      { ids := "1,2", RequestURI := "/widgets/1,2" }
      [{ id := 1, links := [.uint64Slice []] }, { id := 2, links := [.uint64Slice []] }]
      (by decide)).2.1 (by decide) (by decide) (by decide)⟩

end JsonApi
